import Mathlib

/-!
Verification of the whoop-insights ingestion and feature-engineering core.

The definitions below are a shallow embedding of the Python sources:
  backend/app/ml/feature_engineering/daily_features.py   (rolling feature engine)
  backend/app/services/ingestion/whoop_ingestion.py      (parsing, upsert, orchestration)
  backend/app/services/whoop_client.py                   (rate limiter, retry)
  backend/app/api/v1/endpoints/whoop.py                  (API-sync date assignment)

Numeric values are modelled as rationals; timestamps as integer minutes or
milliseconds; missing values (None / pandas NA) as Option.none.  Square roots
(pandas .std) live in the reals.
-/

namespace Whoop

/-! ## Rolling feature engine (daily_features.py)

A daily series is a list of optional rationals, index = day position in the
date-ordered history of one user.  pandas `rolling(window=w, min_periods=m)`
at index `i` looks at indices `i-w+1 .. i` (clipped at 0), counts the non-null
entries, and produces a value only when at least `m` are present.
-/

/-- The non-null values inside the pandas rolling window of width `w`
ending at index `i` (indices `j ≤ i` with `i < j + w`). -/
def winVals (w : ℕ) (xs : List (Option ℚ)) (i : ℕ) : List ℚ :=
  (((List.range (i + 1)).filter (fun j => decide (i < j + w))).map
    (fun j => xs.getD j none)).filterMap id

/-- Arithmetic mean of a list of rationals (0 on the empty list; every use
is guarded by a positive min-period count). -/
def listMean (vs : List ℚ) : ℚ := vs.sum / vs.length

/-- Population variance (pandas `std(ddof=0)` squared). -/
def listVarPop (vs : List ℚ) : ℚ :=
  ((vs.map (fun x => (x - listMean vs) ^ 2)).sum) / vs.length

/-- `min_periods=max(3, window // 2)` from `_rolling_mean` / `_rolling_std`. -/
def minPeriods (w : ℕ) : ℕ := max 3 (w / 2)

/-- pandas `series.rolling(w, min_periods=minp).mean()` at index `i`. -/
def rollingMeanAt (w minp : ℕ) (xs : List (Option ℚ)) (i : ℕ) : Option ℚ :=
  let vs := winVals w xs i
  if minp ≤ vs.length then some (listMean vs) else none

/-- `_rolling_mean`: rolling mean followed by `.shift(1)` — the value at day
`i` is the rolling mean taken at day `i - 1`, and day 0 has no value. -/
def rollingMeanShiftAt (w minp : ℕ) (xs : List (Option ℚ)) : ℕ → Option ℚ
  | 0 => none
  | Nat.succ j => rollingMeanAt w minp xs j

/-- pandas `series.rolling(w, min_periods=minp).var(ddof=0)` at index `i`;
the standard deviation of `_rolling_std` is its square root. -/
def rollingVarAt (w minp : ℕ) (xs : List (Option ℚ)) (i : ℕ) : Option ℚ :=
  let vs := winVals w xs i
  if minp ≤ vs.length then some (listVarPop vs) else none

/-- `_rolling_std` squared: rolling population variance with `.shift(1)`. -/
def rollingVarShiftAt (w minp : ℕ) (xs : List (Option ℚ)) : ℕ → Option ℚ
  | 0 => none
  | Nat.succ j => rollingVarAt w minp xs j

/-- `_rolling_std`: rolling population standard deviation with `.shift(1)`. -/
noncomputable def rollingStdShiftAt (w minp : ℕ) (xs : List (Option ℚ)) (i : ℕ) : Option ℝ :=
  (rollingVarShiftAt w minp xs i).map (fun q : ℚ => Real.sqrt q)

/-- `_rolling_std` without the shift (used by `_consistency`, window 14). -/
noncomputable def rollingStdAt (w minp : ℕ) (xs : List (Option ℚ)) (i : ℕ) : Option ℝ :=
  (rollingVarAt w minp xs i).map (fun q : ℚ => Real.sqrt q)

/-- `_zscore(value, mean, std)`: None when any operand is missing or the
standard deviation is zero, else `(value - mean) / std`.  The engine calls it
with the day value, the shifted 7-day mean and the shifted 7-day std. -/
noncomputable def zScoreAt (xs : List (Option ℚ)) (i : ℕ) : Option ℝ :=
  match xs.getD i none, rollingMeanShiftAt 7 (minPeriods 7) xs i,
      rollingStdShiftAt 7 (minPeriods 7) xs i with
  | some v, some m, some s => if s = 0 then none else some (((v : ℝ) - (m : ℝ)) / s)
  | _, _, _ => none

/-- `TARGET_SLEEP_HOURS = 8.0`. -/
def TARGET_SLEEP_HOURS : ℚ := 8

/-- pandas `.clip(lower=0)` on a single value. -/
def clipLower0 (x : ℚ) : ℚ := if x < 0 then 0 else x

/-- The per-day shortfall `(TARGET_SLEEP_HOURS - series).clip(lower=0)`. -/
def debtSeries (xs : List (Option ℚ)) : List (Option ℚ) :=
  xs.map (Option.map (fun x => clipLower0 (TARGET_SLEEP_HOURS - x)))

/-- `_sleep_debt`: 7-day rolling sum (min 3 samples, **no** shift) of the
per-day shortfall; day `i` includes its own value. -/
def sleepDebtAt (xs : List (Option ℚ)) (i : ℕ) : Option ℚ :=
  let vs := winVals 7 (debtSeries xs) i
  if 3 ≤ vs.length then some vs.sum else none

/-- `_consistency`: `clip(100 - 10 * rolling_std_14(min 5), 0, 100)` with
missing stds treated as 0; always produces a value. -/
noncomputable def consistencyAt (xs : List (Option ℚ)) (i : ℕ) : ℝ :=
  let s : ℝ := ((rollingStdAt 14 5 xs i).getD 0)
  min 100 (max 0 (100 - s * 10))

/-- `acute_chronic_ratio`: shifted 7-day mean strain over shifted 28-day mean
strain, with a zero denominator replaced by NA before dividing. -/
def acuteChronicAt (strain : List (Option ℚ)) (i : ℕ) : Option ℚ :=
  match rollingMeanShiftAt 7 (minPeriods 7) strain i,
      rollingMeanShiftAt 28 (minPeriods 28) strain i with
  | some a, some c => if c = 0 then none else some (a / c)
  | _, _ => none

/-- Number of non-null entries in the width-`w` window of days strictly
before day `i` — exactly the sample count the shifted statistics use. -/
def priorWinCount (w : ℕ) (xs : List (Option ℚ)) : ℕ → ℕ
  | 0 => 0
  | Nat.succ j => (winVals w xs j).length

/-! ## Values and numeric coercion (whoop_ingestion.py `_safe_float`)

A CSV / dataframe cell is null, a number, or a string.  (Float NaN
peculiarities are outside this rational-number model; missing numeric cells
are `vnone`.) -/

inductive PyVal where
  | vnone
  | vnum (q : ℚ)
  | vstr (s : String)
  deriving DecidableEq, Repr

/-- Value of a digit string, most significant first. -/
def natOfDigits (cs : List Char) : ℕ :=
  cs.foldl (fun n c => n * 10 + (c.toNat - 48)) 0

/-- Syntactic phase of the Python `float()` builtin on strings, restricted
to plain decimal forms `[+|-]digits[.digits]`: returns
(negative?, integer part, fraction digits value, fraction digit count), or
None when the string is not such a form. -/
def pyFloatParts (s : String) : Option (Bool × ℕ × ℕ × ℕ) :=
  let cs := s.toList
  let neg : Bool := cs.head? = some '-'
  let core := if cs.head? = some '-' ∨ cs.head? = some '+' then cs.drop 1 else cs
  if core.isEmpty then none
  else if ¬ core.all (fun c => c.isDigit || c == '.') then none
  else
    match core.splitOn '.' with
    | [ds] => some (neg, natOfDigits ds, 0, 0)
    | [ip, fp] =>
        if ip.isEmpty && fp.isEmpty then none
        else some (neg, natOfDigits ip, natOfDigits fp, fp.length)
    | _ => none

/-- Semantic phase of `float()`: the rational a parsed decimal denotes. -/
def partsToRat (p : Bool × ℕ × ℕ × ℕ) : ℚ :=
  let m : ℚ := (p.2.1 : ℚ) + (p.2.2.1 : ℚ) / (10 : ℚ) ^ p.2.2.2
  if p.1 then -m else m

/-- Model of the Python `float()` builtin on strings. -/
def pyFloatOfString (s : String) : Option ℚ :=
  (pyFloatParts s).map partsToRat

/-- Python `str.strip()` default whitespace characters. -/
def isSpaceChar (c : Char) : Bool :=
  c = ' ' || c = '\t' || c = '\n' || c = '\r'

/-- The string preprocessing inside `_safe_float`:
`val.replace(",", "").strip()`. -/
def preprocessVal (v : PyVal) : PyVal :=
  match v with
  | .vstr s =>
      .vstr ⟨((((s.toList.filter (fun c => c ≠ ',')).dropWhile
        isSpaceChar).reverse.dropWhile isSpaceChar).reverse)⟩
  | x => x

/-- The Python `float(val)` call inside `_safe_float`: fails with a
TypeError on None and a ValueError on an unparsable string. -/
def pyFloat (v : PyVal) : Except String ℚ :=
  match v with
  | .vnone => .error "TypeError"
  | .vnum q => .ok q
  | .vstr s =>
      match pyFloatOfString s with
      | some q => .ok q
      | none => .error "ValueError"

/-- `_safe_float`: preprocess string inputs, attempt `float()`, and turn any
raised error into None. -/
def safe_float (v : PyVal) : Option ℚ :=
  match pyFloat (preprocessVal v) with
  | .ok q => some q
  | .error _ => none

/-! ## Persisted rows (models/database.py)

Dates are absolute day numbers (ℤ), timestamps absolute minutes (ℤ).
Columns holding results of a square root (z-scores, consistency) are real;
every other numeric column is rational.  `rid` models the autoincrement
primary key. -/

structure DailyMetrics where
  rid : ℕ
  user_id : String
  date : ℤ
  recovery_score : Option ℚ := none
  strain_score : Option ℚ := none
  sleep_hours : Option ℚ := none
  hrv : Option ℚ := none
  resting_hr : Option ℚ := none
  workouts_count : Option ℤ := none
  strain_baseline_7d : Option ℚ := none
  strain_baseline_30d : Option ℚ := none
  recovery_baseline_7d : Option ℚ := none
  recovery_baseline_30d : Option ℚ := none
  sleep_baseline_7d : Option ℚ := none
  sleep_baseline_30d : Option ℚ := none
  hrv_baseline_7d : Option ℚ := none
  hrv_baseline_30d : Option ℚ := none
  rhr_baseline_7d : Option ℚ := none
  rhr_baseline_30d : Option ℚ := none
  recovery_z_score : Option ℝ := none
  strain_z_score : Option ℝ := none
  sleep_z_score : Option ℝ := none
  hrv_z_score : Option ℝ := none
  rhr_z_score : Option ℝ := none
  acute_chronic_ratio : Option ℚ := none
  sleep_debt : Option ℚ := none
  consistency_score : Option ℝ := none
  extra : Option (List (String × PyVal)) := none

structure Workout where
  rid : ℕ
  user_id : String
  workout_id : String
  date : ℤ
  start_time : ℤ
  end_time : ℤ
  duration_minutes : ℚ
  sport_type : String
  avg_hr : Option ℚ := none
  max_hr : Option ℚ := none
  strain : Option ℚ := none
  calories : Option ℚ := none
  deriving DecidableEq, Repr

inductive UploadStatus where
  | processing | completed | failed
  deriving DecidableEq, Repr

structure Upload where
  id : String
  user_id : String
  status : UploadStatus
  error_message : Option String := none
  deriving DecidableEq, Repr

/-- The relational store (Insight rows are kept only as their user id: the
ingestion core merely deletes them wholesale). -/
structure Database where
  metricsNextId : ℕ := 1
  metrics : List DailyMetrics := []
  workoutsNextId : ℕ := 1
  workouts : List Workout := []
  insights : List String := []
  uploads : List Upload := []

/-! ## Parsed inputs handed to the persistence step -/

/-- One row of the parsed daily-metrics dataframe. -/
structure ParsedDaily where
  date : Option ℤ
  sleep_hours : PyVal := .vnone
  recovery_score : PyVal := .vnone
  hrv : PyVal := .vnone
  resting_hr : PyVal := .vnone
  strain_score : PyVal := .vnone
  sleep_debt : PyVal := .vnone
  consistency_score : PyVal := .vnone
  extra : Option (List (String × PyVal)) := none
  deriving DecidableEq, Repr

/-- One candidate workout produced by `parse_workouts`. -/
structure ParsedWorkout where
  workout_id : String
  date : ℤ
  start_time : ℤ
  end_time : ℤ
  duration_minutes : ℚ
  sport_type : String
  avg_hr : Option ℚ := none
  max_hr : Option ℚ := none
  strain : Option ℚ := none
  calories : Option ℚ := none
  deriving DecidableEq, Repr

/-! ## Upsert store (whoop_ingestion.py) -/

/-- Replace the first element satisfying `p` (SQLAlchemy `.first()` then
mutate in place). -/
def updateFirst {α : Type} (p : α → Bool) (f : α → α) : List α → List α
  | [] => []
  | x :: xs => if p x then f x :: xs else x :: updateFirst p f xs

/-- `clear_existing_data`: delete all DailyMetrics, Workout and Insight rows
of one user (no commit of its own). -/
def clear_existing_data (u : String) (db : Database) : Database :=
  { db with
    metrics := db.metrics.filter (fun m => m.user_id ≠ u),
    workouts := db.workouts.filter (fun w => w.user_id ≠ u),
    insights := db.insights.filter (fun i => i ≠ u) }

/-- The payload dictionary built inside `upsert_daily_metrics`: every value
already passed through `_safe_float` (the extra bag is passed through raw). -/
structure Payload where
  sleep_hours : Option ℚ
  recovery_score : Option ℚ
  hrv : Option ℚ
  resting_hr : Option ℚ
  strain_score : Option ℚ
  sleep_debt : Option ℚ
  consistency_score : Option ℚ
  extra : Option (List (String × PyVal))

def mkPayload (r : ParsedDaily) : Payload :=
  { sleep_hours := safe_float r.sleep_hours,
    recovery_score := safe_float r.recovery_score,
    hrv := safe_float r.hrv,
    resting_hr := safe_float r.resting_hr,
    strain_score := safe_float r.strain_score,
    sleep_debt := safe_float r.sleep_debt,
    consistency_score := safe_float r.consistency_score,
    extra := r.extra }

/-- `for k, v in payload.items(): if v is not None: setattr(dm, k, v)` —
only the non-null payload entries overwrite; every other column of the row
is left as it was. -/
def applyPayload (p : Payload) (m : DailyMetrics) : DailyMetrics :=
  { m with
    sleep_hours := match p.sleep_hours with | some v => some v | none => m.sleep_hours,
    recovery_score := match p.recovery_score with | some v => some v | none => m.recovery_score,
    hrv := match p.hrv with | some v => some v | none => m.hrv,
    resting_hr := match p.resting_hr with | some v => some v | none => m.resting_hr,
    strain_score := match p.strain_score with | some v => some v | none => m.strain_score,
    sleep_debt := match p.sleep_debt with | some v => some v | none => m.sleep_debt,
    consistency_score := match p.consistency_score with
      | some v => some ((v : ℝ)) | none => m.consistency_score,
    extra := match p.extra with | some e => some e | none => m.extra }

/-- `DailyMetrics(user_id=..., date=..., **payload)`: a fresh row carrying
the payload, the column default 0 for `workouts_count`, and nulls in all
remaining columns. -/
def newDailyMetrics (rid : ℕ) (u : String) (d : ℤ) (p : Payload) : DailyMetrics :=
  { rid := rid, user_id := u, date := d,
    sleep_hours := p.sleep_hours,
    recovery_score := p.recovery_score,
    hrv := p.hrv,
    resting_hr := p.resting_hr,
    strain_score := p.strain_score,
    sleep_debt := p.sleep_debt,
    consistency_score := p.consistency_score.map (fun q : ℚ => (q : ℝ)),
    extra := p.extra,
    workouts_count := some 0 }

/-- One iteration of the `upsert_daily_metrics` loop: rows with a null date
are skipped; an existing (user, date) row is partially updated in place,
otherwise a fresh row is inserted. -/
def upsertOne (u : String) (db : Database) (r : ParsedDaily) : Database :=
  match r.date with
  | none => db
  | some d =>
      let p := mkPayload r
      if db.metrics.any (fun m => m.user_id = u ∧ m.date = d) then
        { db with metrics :=
            updateFirst (fun m => m.user_id = u ∧ m.date = d) (applyPayload p) db.metrics }
      else
        { db with
          metrics := db.metrics ++ [newDailyMetrics db.metricsNextId u d p],
          metricsNextId := db.metricsNextId + 1 }

/-- `upsert_daily_metrics` (the commit at its end is handled by the
transaction layer below). -/
def upsert_daily_metrics (u : String) (rows : List ParsedDaily) (db : Database) : Database :=
  rows.foldl (upsertOne u) db

/-- The dedup-key test of `persist_workouts`:
(user, start_time, duration, sport_type). -/
def workoutKeyMatches (u : String) (w : ParsedWorkout) (e : Workout) : Bool :=
  e.user_id = u ∧ e.start_time = w.start_time
    ∧ e.duration_minutes = w.duration_minutes ∧ e.sport_type = w.sport_type

def insertWorkout (u : String) (db : Database) (w : ParsedWorkout) : Database :=
  { db with
    workouts := db.workouts ++ [{
      rid := db.workoutsNextId, user_id := u, workout_id := w.workout_id,
      date := w.date, start_time := w.start_time, end_time := w.end_time,
      duration_minutes := w.duration_minutes, sport_type := w.sport_type,
      avg_hr := w.avg_hr, max_hr := w.max_hr, strain := w.strain,
      calories := w.calories }],
    workoutsNextId := db.workoutsNextId + 1 }

/-- One iteration of the `persist_workouts` loop over the accumulated
(store, created, skipped). -/
def persistStep (u : String) (acc : Database × ℕ × ℕ) (w : ParsedWorkout) :
    Database × ℕ × ℕ :=
  if acc.1.workouts.any (workoutKeyMatches u w) then
    (acc.1, acc.2.1, acc.2.2 + 1)
  else
    (insertWorkout u acc.1 w, acc.2.1 + 1, acc.2.2)

/-- `persist_workouts`: skip any candidate whose dedup key matches an
existing row (rows added earlier in the same loop are visible), else insert.
Returns the store and the (created, skipped) counters. -/
def persist_workouts (u : String) (ws : List ParsedWorkout) (db : Database) :
    Database × ℕ × ℕ :=
  ws.foldl (persistStep u) (db, 0, 0)

/-! ## Feature write-back (daily_features.py `recompute_daily_features`) -/

/-- Insertion sort by ascending date (`order_by(DailyMetrics.date.asc())`). -/
def insertByDate (m : DailyMetrics) : List DailyMetrics → List DailyMetrics
  | [] => [m]
  | x :: xs => if m.date ≤ x.date then m :: x :: xs else x :: insertByDate m xs

def sortByDate : List DailyMetrics → List DailyMetrics
  | [] => []
  | x :: xs => insertByDate x (sortByDate xs)

/-- `Workout.date, count(id), sum(strain)` grouped by date; SQL SUM skips
nulls and is itself null when every addend is null. -/
def workoutSummaryFor (ws : List Workout) (d : ℤ) : Option (ℕ × Option ℚ) :=
  let g := ws.filter (fun w => w.date = d)
  if g.isEmpty then none
  else
    let ss := g.filterMap (fun w => w.strain)
    some (g.length, if ss.isEmpty then none else some ss.sum)

/-- Python `x or 0` on an optional number (None and 0 both give 0, which is
value-equal to `getD 0`). -/
def pyOrZero (x : Option ℚ) : ℚ := x.getD 0

/-- The pre-feature sync loop: `dm.workouts_count = summary["count"]`, and
`dm.strain_score = summary["strain_sum"]` when the stored strain is null or
zero; with no workouts on that date the defaults `dm.workouts_count or 0`
and `dm.strain_score or 0` are used. -/
def syncRow (ws : List Workout) (m : DailyMetrics) : DailyMetrics :=
  match workoutSummaryFor ws m.date with
  | some (c, ssum) =>
      let m1 := { m with workouts_count := some (c : ℤ) }
      if m1.strain_score = none ∨ m1.strain_score = some 0 then
        { m1 with strain_score := some (pyOrZero ssum) }
      else m1
  | none =>
      let m1 := { m with workouts_count := some (m.workouts_count.getD 0) }
      if m1.strain_score = none ∨ m1.strain_score = some 0 then
        { m1 with strain_score := some (pyOrZero m1.strain_score) }
      else m1

/-- `compute_daily_feature_frame` plus the per-row write-back: the derived
columns of the row sitting at position `i` of the date-sorted user slice
`rows`. -/
noncomputable def featureRow (rows : List DailyMetrics) (i : ℕ) (m : DailyMetrics) :
    DailyMetrics :=
  let recovery := rows.map (fun x => x.recovery_score)
  let strain := rows.map (fun x => x.strain_score)
  let sleep := rows.map (fun x => x.sleep_hours)
  let hrvs := rows.map (fun x => x.hrv)
  let rhr := rows.map (fun x => x.resting_hr)
  { m with
    recovery_baseline_7d := rollingMeanShiftAt 7 (minPeriods 7) recovery i,
    recovery_baseline_30d := rollingMeanShiftAt 28 (minPeriods 28) recovery i,
    strain_baseline_7d := rollingMeanShiftAt 7 (minPeriods 7) strain i,
    strain_baseline_30d := rollingMeanShiftAt 28 (minPeriods 28) strain i,
    sleep_baseline_7d := rollingMeanShiftAt 7 (minPeriods 7) sleep i,
    sleep_baseline_30d := rollingMeanShiftAt 28 (minPeriods 28) sleep i,
    hrv_baseline_7d := rollingMeanShiftAt 7 (minPeriods 7) hrvs i,
    hrv_baseline_30d := rollingMeanShiftAt 28 (minPeriods 28) hrvs i,
    rhr_baseline_7d := rollingMeanShiftAt 7 (minPeriods 7) rhr i,
    rhr_baseline_30d := rollingMeanShiftAt 28 (minPeriods 28) rhr i,
    recovery_z_score := zScoreAt recovery i,
    strain_z_score := zScoreAt strain i,
    sleep_z_score := zScoreAt sleep i,
    hrv_z_score := zScoreAt hrvs i,
    rhr_z_score := zScoreAt rhr i,
    acute_chronic_ratio := acuteChronicAt strain i,
    sleep_debt := sleepDebtAt sleep i,
    consistency_score := some (consistencyAt sleep i) }

/-- The write-back for one row `m` of the user's slice `S` (its workouts
being `W`): find the synced-and-sorted row with the same primary key and
attach the derived columns computed at its sorted position. -/
noncomputable def sliceRecomputeRow (S : List DailyMetrics) (W : List Workout)
    (m : DailyMetrics) : DailyMetrics :=
  match ((sortByDate S).map (syncRow W)).enum.find? (fun p => p.2.rid == m.rid) with
  | some (i, x) => featureRow ((sortByDate S).map (syncRow W)) i x
  | none => m

/-- `recompute_daily_features`: load the user's rows date-ascending, sync
workout aggregates into them, compute derived columns, and write them back
into the same rows, matched by primary key (an update, never an insert).
Rows of other users are untouched. -/
noncomputable def recompute_daily_features (u : String) (db : Database) : Database :=
  { db with metrics := db.metrics.map (fun m =>
      if m.user_id = u then
        sliceRecomputeRow (db.metrics.filter (fun m => m.user_id = u))
          (db.workouts.filter (fun w => w.user_id = u)) m
      else m) }

/-! ## Transactions and the ingestion orchestrator (whoop_ingestion.py) -/

/-- A SQLAlchemy session: the committed store and the pending view with the
uncommitted changes of the open transaction. -/
structure TxState where
  committed : Database
  pending : Database

def commitTx (st : TxState) : TxState := { committed := st.pending, pending := st.pending }

def rollbackTx (st : TxState) : TxState := { committed := st.committed, pending := st.committed }

/-- Result of the archive parsing steps (CSV discovery and parsing). -/
structure ParsedArchive where
  metrics : List ParsedDaily
  workouts : List ParsedWorkout
  deriving DecidableEq, Repr

/-- `ingest_whoop_zip` at commit granularity.  The user row, zip saving,
progress callbacks and model training are outside the modelled stores.  The
pre-ingestion reset runs without a commit of its own, but the commit that
creates the Upload record (before the try block) makes it durable; each
persistence step commits; on any parse failure the session is rolled back,
the Upload row is marked failed and committed. -/
noncomputable def ingest_whoop_zip (u uploadId : String)
    (parse : Except String ParsedArchive) (st : TxState) : TxState :=
  let st1 := { st with pending := clear_existing_data u st.pending }
  let newUploads := st1.pending.uploads ++
    [{ id := uploadId, user_id := u, status := UploadStatus.processing }]
  let st2 := { st1 with pending := { st1.pending with uploads := newUploads } }
  let st3 := commitTx st2
  match parse with
  | .error msg =>
      let st4 := rollbackTx st3
      let failedUploads := updateFirst (fun up => up.id = uploadId)
        (fun up => { up with status := UploadStatus.failed, error_message := some msg })
        st4.pending.uploads
      let st5 := { st4 with pending := { st4.pending with uploads := failedUploads } }
      commitTx st5
  | .ok data =>
      let st4 := commitTx { st3 with
        pending := upsert_daily_metrics u data.metrics st3.pending }
      let st5 := commitTx { st4 with
        pending := (persist_workouts u data.workouts st4.pending).1 }
      let st6 := commitTx { st5 with
        pending := recompute_daily_features u st5.pending }
      let doneUploads := updateFirst (fun up => up.id = uploadId)
        (fun up => { up with status := UploadStatus.completed })
        st6.pending.uploads
      let st7 := { st6 with pending := { st6.pending with uploads := doneUploads } }
      commitTx st7

/-- Uniform shift of metric-row primary keys (used to compare the rows of
two ingestion runs, whose autoincrement counters differ). -/
def addRid (n : ℕ) (m : DailyMetrics) : DailyMetrics := { m with rid := m.rid + n }

def addWRid (n : ℕ) (w : Workout) : Workout := { w with rid := w.rid + n }

/-- Forget the surrogate primary key, keeping every data column. -/
def stripRid (m : DailyMetrics) : DailyMetrics := { m with rid := 0 }

def stripWRid (w : Workout) : Workout := { w with rid := 0 }

/-- The user's DailyMetric rows, primary keys forgotten. -/
def obsMetrics (u : String) (db : Database) : List DailyMetrics :=
  (db.metrics.filter (fun m => m.user_id = u)).map stripRid

/-- The user's Workout rows, primary keys forgotten. -/
def obsWorkouts (u : String) (db : Database) : List Workout :=
  (db.workouts.filter (fun w => w.user_id = u)).map stripWRid

/-! ### Concrete stores used to exercise the orchestrator -/

/-- A store holding one previously ingested day and one workout of user
`dave`. -/
def davePrior : Database :=
  { metricsNextId := 2,
    metrics := [({ rid := 1, user_id := "dave", date := 0,
                   recovery_score := some 80, sleep_hours := some 7 } : DailyMetrics)],
    workoutsNextId := 2,
    workouts := [({ rid := 1, user_id := "dave", workout_id := "w1", date := 0,
                    start_time := 0, end_time := 30, duration_minutes := 30,
                    sport_type := "run" } : Workout)] }

/-- An archive-ingestion run for `dave` whose parsing fails (for example a
zip with no CSV files). -/
noncomputable def daveFailedRun : TxState :=
  ingest_whoop_zip "dave" "up1" (Except.error "No CSV files found")
    { committed := davePrior, pending := davePrior }

/-- A store with one metric row of user `carol` (workouts_count 0, strain
null) and one workout of hers on the same date. -/
def carolDb : Database :=
  { metricsNextId := 2,
    metrics := [({ rid := 1, user_id := "carol", date := 0,
                   workouts_count := some 0, recovery_score := some 50 } : DailyMetrics)],
    workoutsNextId := 2,
    workouts := [({ rid := 1, user_id := "carol", workout_id := "w1", date := 0,
                    start_time := 0, end_time := 30, duration_minutes := 30,
                    sport_type := "run" } : Workout)] }

/-! ## Rate limiter (whoop_client.py `_wait_for_rate_limit`)

Time is in integer milliseconds.  One client instance serializes calls
through its lock; network time is taken as zero (the adversarial schedule
permitted by the code), so the next call starts when the previous wait
returns. -/

def RATE_LIMIT_PER_MINUTE : ℕ := 100
def RATE_LIMIT_PER_DAY : ℕ := 10000
def MIN_DELAY_MS : ℤ := 600
def MINUTE_MS : ℤ := 60000
def DAY_MS : ℤ := 86400000

structure RLState where
  ledger : List ℤ
  dailyCount : ℕ
  dailyReset : ℤ
  clock : ℤ
  deriving DecidableEq, Repr

/-- The next UTC midnight strictly after `t`
(`utcnow().replace(hour=0, ...) + timedelta(days=1)`). -/
def nextMidnight (t : ℤ) : ℤ := (t.fdiv DAY_MS + 1) * DAY_MS

/-- `_wait_for_rate_limit`.  The timestamp recorded in the sliding window —
and the one the pruning and cap tests compare against — is `now`, taken
BEFORE any sleeping; the source re-uses that stale value after its sleeps.
The deque prune (popleft while older than one minute) is a filter here
because the ledger is kept in ascending order. -/
def waitForRateLimit (st : RLState) : RLState :=
  let now := st.clock
  let dc0 := if st.dailyReset ≤ now then 0 else st.dailyCount
  let dr0 := if st.dailyReset ≤ now then nextMidnight now else st.dailyReset
  let dailySleeps := RATE_LIMIT_PER_DAY ≤ dc0 ∧ 0 < dr0 - now
  let dWait := if dailySleeps then dr0 - now + 1000 else 0
  let clock1 := now + dWait
  let dc1 := if dailySleeps then 0 else dc0
  let dr1 := if dailySleeps then nextMidnight clock1 else dr0
  let ledger1 := st.ledger.filter (fun t => ¬ t < now - MINUTE_MS)
  let mWait :=
    if RATE_LIMIT_PER_MINUTE ≤ ledger1.length
        ∧ 0 < ledger1.head?.getD 0 + MINUTE_MS - now
    then ledger1.head?.getD 0 + MINUTE_MS - now + 100
    else 0
  { ledger := ledger1 ++ [now], dailyCount := dc1 + 1, dailyReset := dr1,
    clock := clock1 + mWait + MIN_DELAY_MS }

/-- Fresh client state at clock 0 (daily window resets at the next UTC
midnight). -/
def rlInit : RLState :=
  { ledger := [], dailyCount := 0, dailyReset := DAY_MS, clock := 0 }

/-- State after `n` requests issued back to back through one client. -/
def rlStateAt : ℕ → RLState
  | 0 => rlInit
  | n + 1 => waitForRateLimit (rlStateAt n)

/-- The instant the `n`-th request (0-based) is sent: the moment its
rate-limit wait (including the 600 ms minimum delay) returns. -/
def sendTime (n : ℕ) : ℤ := (rlStateAt (n + 1)).clock

/-- Single-pass accumulation of the first `n` send times (used to evaluate
concrete schedules without re-running the recursion per index). -/
def rlRun : ℕ → RLState × List ℤ
  | 0 => (rlInit, [])
  | n + 1 =>
      let p := rlRun n
      let st := waitForRateLimit p.1
      (st, p.2 ++ [st.clock])

/-! ## Retry policy (whoop_client.py `_get_with_retry`) -/

/-- What the server answers one attempt (only the pieces the retry loop
inspects): the HTTP status and the parsed Retry-After header. -/
structure HttpResponse where
  status : ℕ
  retryAfter : Option ℕ := none
  deriving DecidableEq, Repr

inductive FetchError where
  | httpStatus (code : ℕ)
  | exhausted
  deriving DecidableEq, Repr

def MAX_RETRIES : ℕ := 3

/-- The attempt loop of `_get_with_retry`: `responses k` is the response the
server gives the k-th attempt, `fuel` the remaining loop iterations, `t` the
current time in seconds.  Returns the outcome (success = the returning
attempt index, standing for `response.json()`) and the instants at which
attempts were sent.  A 429 on a non-final attempt sleeps Retry-After seconds
when the header is present, else `2 ^ attempt`; a 429 on the final attempt
and any other non-2xx status raise `HTTPStatusError` carrying that status;
the fuel-out case models the trailing `raise Exception`. -/
def getWithRetryAux (responses : ℕ → HttpResponse) :
    (fuel attempt t : ℕ) → Except FetchError ℕ × List ℕ
  | 0, _, _ => (.error .exhausted, [])
  | fuel + 1, k, t =>
      let r := responses k
      if r.status = 429 then
        if fuel = 0 then (.error (.httpStatus 429), [t])
        else
          let w := match r.retryAfter with | some s => s | none => 2 ^ k
          let rest := getWithRetryAux responses fuel (k + 1) (t + w)
          (rest.1, t :: rest.2)
      else if 400 ≤ r.status then (.error (.httpStatus r.status), [t])
      else (.ok k, [t])

/-- `_get_with_retry` with its default `max_retries=3`, started at time 0. -/
def getWithRetry (responses : ℕ → HttpResponse) : Except FetchError ℕ × List ℕ :=
  getWithRetryAux responses MAX_RETRIES 0 0

/-! ## Calendar-date assignment for consolidated cycles
(whoop_ingestion.py `parse_physiological_cycles` and the API sync in
endpoints/whoop.py)

Clock values are minutes; the local date of a clock value `t` is
`t.fdiv 1440`. -/

def MINUTES_PER_DAY : ℤ := 1440

def dateOf (t : ℤ) : ℤ := t.fdiv MINUTES_PER_DAY

/-- The `"+HH:MM"` / `"-HH:MM"` offset parse shared by both paths: a leading
`+` means positive, anything else negative; at least two colon-separated
numeric parts are required, otherwise the parse raises (None here). -/
def parseOffsetMinutes (s : String) : Option ℤ :=
  let sign : ℤ := if s.toList.head? = some '+' then 1 else -1
  match (s.toList.drop 1).splitOn ':' with
  | h :: mnts :: _ =>
      if h.isEmpty || mnts.isEmpty || ¬ h.all Char.isDigit || ¬ mnts.all Char.isDigit
      then none
      else some (sign * ((natOfDigits h : ℤ) * 60 + (natOfDigits mnts : ℤ)))
  | _ => none

/-- Python string truthiness on an optional string: None and `""` are
falsy. -/
def pyTruthyStr (o : Option String) : Option String :=
  match o with
  | some s => if s = "" then none else some s
  | none => none

/-- One record of the consolidated physiological-cycles CSV (the pieces the
date logic reads). -/
structure CsvCycleRec where
  cycle_start : Option ℤ
  timezone_offset : Option String := none
  cycle_end : Option ℤ := none
  deriving DecidableEq, Repr

/-- `_get_local_date` of `parse_physiological_cycles`: the record's own
offset (when its cell is present) shifts the start clock; a missing offset
leaves the raw clock (the assumed-UTC tag does not move the clock); an
unparsable offset raises inside the try and the fallback returns the raw
start date.  The end time is never consulted. -/
def csvLocalDate (r : CsvCycleRec) : Option ℤ :=
  match r.cycle_start with
  | none => none
  | some t =>
      match r.timezone_offset with
      | some s =>
          match parseOffsetMinutes s with
          | some off => some (dateOf (t + off))
          | none => some (dateOf t)
      | none => some (dateOf t)

/-- Modelled from the spec: the claimed date-assignment rule for
consolidated cycle records — the local start date computed with the record's
own offset, or, if absent, the first offset found anywhere in the batch, or,
failing both, the raw timestamp treated as already local. -/
def specCycleDate (batch : List CsvCycleRec) (r : CsvCycleRec) : Option ℤ :=
  (r.cycle_start).map (fun t =>
    match (pyTruthyStr r.timezone_offset).or
        ((batch.filterMap (fun c => pyTruthyStr c.timezone_offset)).head?) with
    | some s =>
        match parseOffsetMinutes s with
        | some off => dateOf (t + off)
        | none => dateOf t
    | none => dateOf t)

/-- One cycle record from the vendor API (`whoop_callback`). -/
structure ApiCycle where
  cid : ℕ
  start : Option ℤ := none
  stop : Option ℤ := none
  timezone_offset : Option String := none
  deriving DecidableEq, Repr

/-- `global_timezone_offset`: the first truthy offset found anywhere in the
batch. -/
def apiGlobalOffset (cycles : List ApiCycle) : Option String :=
  (cycles.filterMap (fun c => pyTruthyStr c.timezone_offset)).head?

/-- The date assignment of the API sync loop: `end or start` must exist or
the record is skipped; the record's own truthy offset, else the batch-global
one, shifts both clocks; the assigned date is the local START date when a
start exists, else the local end (wake-up) date; an unparsable offset falls
back to the raw start (else raw end) date; with no offset at all the raw
start (else raw end) date is used. -/
def apiAssignDate (g : Option String) (c : ApiCycle) : Option ℤ :=
  match (match c.stop with | some e => some e | none => c.start) with
  | none => none
  | some e =>
      match (pyTruthyStr c.timezone_offset).or (pyTruthyStr g) with
      | some s =>
          match parseOffsetMinutes s with
          | some off =>
              match c.start with
              | some st => some (dateOf (st + off))
              | none => some (dateOf (e + off))
          | none =>
              match c.start with
              | some st => some (dateOf st)
              | none => some (dateOf e)
      | none =>
          match c.start with
          | some st => some (dateOf st)
          | none => some (dateOf e)

/-! ### Slice-level view of one ingestion run

The ingestion operators only read and write the acting user's rows (every
query filters on `user_id`); these mirror images of the operators act on
that slice alone, with the autoincrement counter carried explicitly.  They
exist to state and prove that the rows a run produces for its user depend
only on the parsed archive. -/

def sliceUpsertOne (u : String) (acc : List DailyMetrics × ℕ) (r : ParsedDaily) :
    List DailyMetrics × ℕ :=
  match r.date with
  | none => acc
  | some d =>
      let p := mkPayload r
      if acc.1.any (fun m => m.user_id = u ∧ m.date = d) then
        (updateFirst (fun m => m.user_id = u ∧ m.date = d) (applyPayload p) acc.1,
         acc.2)
      else (acc.1 ++ [newDailyMetrics acc.2 u d p], acc.2 + 1)

def sliceUpsertAll (u : String) (rows : List ParsedDaily)
    (acc : List DailyMetrics × ℕ) : List DailyMetrics × ℕ :=
  rows.foldl (sliceUpsertOne u) acc

def slicePersistOne (u : String) (acc : List Workout × ℕ) (w : ParsedWorkout) :
    List Workout × ℕ :=
  if acc.1.any (workoutKeyMatches u w) then acc
  else (acc.1 ++ [{ rid := acc.2, user_id := u, workout_id := w.workout_id,
                    date := w.date, start_time := w.start_time,
                    end_time := w.end_time,
                    duration_minutes := w.duration_minutes,
                    sport_type := w.sport_type, avg_hr := w.avg_hr,
                    max_hr := w.max_hr, strain := w.strain,
                    calories := w.calories }], acc.2 + 1)

def slicePersistAll (u : String) (ws : List ParsedWorkout)
    (acc : List Workout × ℕ) : List Workout × ℕ :=
  ws.foldl (slicePersistOne u) acc

noncomputable def sliceRecompute (S : List DailyMetrics) (W : List Workout) :
    List DailyMetrics :=
  S.map (sliceRecomputeRow S W)

/-- The user's DailyMetric rows, keys forgotten, that one successful
archive ingestion of `data` produces — a function of the archive alone. -/
noncomputable def canonicalMetrics (u : String) (data : ParsedArchive) :
    List DailyMetrics :=
  (sliceRecompute (sliceUpsertAll u data.metrics ([], 0)).1
    (slicePersistAll u data.workouts ([], 0)).1).map stripRid

/-- The user's Workout rows, keys forgotten, that one successful archive
ingestion of `data` produces. -/
def canonicalWorkouts (u : String) (data : ParsedArchive) : List Workout :=
  (slicePersistAll u data.workouts ([], 0)).1.map stripWRid

/-- Invariant of a freshly built metric slice: every row belongs to the
user, every surrogate key is below the running autoincrement counter, and
both the keys and the dates are pairwise distinct. -/
def sliceInv (u : String) (acc : List DailyMetrics × ℕ) : Prop :=
  (∀ m ∈ acc.1, m.user_id = u)
  ∧ (∀ m ∈ acc.1, m.rid < acc.2)
  ∧ acc.1.Pairwise (fun a b => a.rid ≠ b.rid)
  ∧ acc.1.Pairwise (fun a b => a.date ≠ b.date)

/-! ### Helper lemmas -/

theorem winVals_congr {w i : ℕ} {xs ys : List (Option ℚ)}
    (h : ∀ j, j ≤ i → xs.getD j none = ys.getD j none) :
    winVals w xs i = winVals w ys i := by
  unfold winVals
  congr 1
  refine List.map_congr_left ?_
  intro j hj
  have hj' : j ∈ List.range (i + 1) := List.mem_of_mem_filter hj
  exact h j (Nat.lt_succ_iff.mp (List.mem_range.mp hj'))

theorem rollingMeanShiftAt_congr {w minp i : ℕ} {xs ys : List (Option ℚ)}
    (h : ∀ j, j < i → xs.getD j none = ys.getD j none) :
    rollingMeanShiftAt w minp xs i = rollingMeanShiftAt w minp ys i := by
  cases i with
  | zero => rfl
  | succ j =>
      have : winVals w xs j = winVals w ys j :=
        winVals_congr (fun k hk => h k (Nat.lt_succ_of_le hk))
      simp [rollingMeanShiftAt, rollingMeanAt, this]

theorem rollingVarShiftAt_congr {w minp i : ℕ} {xs ys : List (Option ℚ)}
    (h : ∀ j, j < i → xs.getD j none = ys.getD j none) :
    rollingVarShiftAt w minp xs i = rollingVarShiftAt w minp ys i := by
  cases i with
  | zero => rfl
  | succ j =>
      have : winVals w xs j = winVals w ys j :=
        winVals_congr (fun k hk => h k (Nat.lt_succ_of_le hk))
      simp [rollingVarShiftAt, rollingVarAt, this]

theorem rollingStdShiftAt_congr {w minp i : ℕ} {xs ys : List (Option ℚ)}
    (h : ∀ j, j < i → xs.getD j none = ys.getD j none) :
    rollingStdShiftAt w minp xs i = rollingStdShiftAt w minp ys i := by
  unfold rollingStdShiftAt
  rw [rollingVarShiftAt_congr h]

theorem rollingMeanShiftAt_eq_none_iff {w minp : ℕ} (hm : 0 < minp)
    (xs : List (Option ℚ)) (i : ℕ) :
    rollingMeanShiftAt w minp xs i = none ↔ priorWinCount w xs i < minp := by
  cases i with
  | zero => exact ⟨fun _ => hm, fun _ => rfl⟩
  | succ j =>
      simp only [rollingMeanShiftAt, rollingMeanAt, priorWinCount]
      split
      · rename_i h
        exact ⟨fun hx => (Option.some_ne_none _ hx).elim,
          fun hlt => ((Nat.not_le_of_lt hlt) h).elim⟩
      · rename_i h
        exact ⟨fun _ => Nat.lt_of_not_le h, fun _ => rfl⟩

theorem rollingVarShiftAt_eq_none_iff {w minp : ℕ} (hm : 0 < minp)
    (xs : List (Option ℚ)) (i : ℕ) :
    rollingVarShiftAt w minp xs i = none ↔ priorWinCount w xs i < minp := by
  cases i with
  | zero => exact ⟨fun _ => hm, fun _ => rfl⟩
  | succ j =>
      simp only [rollingVarShiftAt, rollingVarAt, priorWinCount]
      split
      · rename_i h
        exact ⟨fun hx => (Option.some_ne_none _ hx).elim,
          fun hlt => ((Nat.not_le_of_lt hlt) h).elim⟩
      · rename_i h
        exact ⟨fun _ => Nat.lt_of_not_le h, fun _ => rfl⟩

theorem rollingStdShiftAt_eq_none_iff {w minp : ℕ} (hm : 0 < minp)
    (xs : List (Option ℚ)) (i : ℕ) :
    rollingStdShiftAt w minp xs i = none ↔ priorWinCount w xs i < minp := by
  rw [← rollingVarShiftAt_eq_none_iff hm xs i]
  unfold rollingStdShiftAt
  exact Option.map_eq_none'

theorem zScoreAt_congr {i : ℕ} {xs ys : List (Option ℚ)}
    (h : ∀ j, j < i → xs.getD j none = ys.getD j none)
    (hv : xs.getD i none = ys.getD i none) : zScoreAt xs i = zScoreAt ys i := by
  unfold zScoreAt
  rw [hv, rollingMeanShiftAt_congr h, rollingStdShiftAt_congr h]

/-- Claim C1: for a date-ordered metric series (the engine applies the same
operators to each of recovery, strain, sleep, hrv, resting_hr), the shifted
7-day and 28-day trailing means and the shifted 7-day trailing standard
deviation at day `i` depend only on raw values of days strictly before `i`
(so changing the raw value of day `i` leaves the baselines of day `i` and the
mean/std operands of its z-score unchanged), and each statistic is null
exactly when fewer than its minimum sample count of prior values exist. -/
theorem rolling_baseline_no_lookahead (xs ys : List (Option ℚ)) (i : ℕ)
    (h : ∀ j, j < i → xs.getD j none = ys.getD j none) :
    (rollingMeanShiftAt 7 (minPeriods 7) xs i = rollingMeanShiftAt 7 (minPeriods 7) ys i
      ∧ rollingMeanShiftAt 28 (minPeriods 28) xs i = rollingMeanShiftAt 28 (minPeriods 28) ys i
      ∧ rollingStdShiftAt 7 (minPeriods 7) xs i = rollingStdShiftAt 7 (minPeriods 7) ys i)
    ∧ (xs.getD i none = ys.getD i none → zScoreAt xs i = zScoreAt ys i)
    ∧ (rollingMeanShiftAt 7 (minPeriods 7) xs i = none
        ↔ priorWinCount 7 xs i < minPeriods 7)
    ∧ (rollingStdShiftAt 7 (minPeriods 7) xs i = none
        ↔ priorWinCount 7 xs i < minPeriods 7)
    ∧ (rollingMeanShiftAt 28 (minPeriods 28) xs i = none
        ↔ priorWinCount 28 xs i < minPeriods 28) := by
  refine ⟨⟨rollingMeanShiftAt_congr h, rollingMeanShiftAt_congr h,
      rollingStdShiftAt_congr h⟩, fun hv => zScoreAt_congr h hv, ?_, ?_, ?_⟩
  · exact rollingMeanShiftAt_eq_none_iff (by decide) xs i
  · exact rollingStdShiftAt_eq_none_iff (by decide) xs i
  · exact rollingMeanShiftAt_eq_none_iff (by decide) xs i

/-- Witness for C1: two concrete four-day histories that agree on days 0..2
and differ on day 3; the theorem applies and its hypothesis holds. -/
theorem rolling_baseline_no_lookahead_witness :
    (∀ j, j < 3 →
      ([some 5, some 6, some 7, some 8] : List (Option ℚ)).getD j none
        = ([some 5, some 6, some 7, some 99] : List (Option ℚ)).getD j none)
    ∧ ((rollingMeanShiftAt 7 (minPeriods 7) [some 5, some 6, some 7, some 8] 3
          = rollingMeanShiftAt 7 (minPeriods 7) [some 5, some 6, some 7, some 99] 3
        ∧ rollingMeanShiftAt 28 (minPeriods 28) [some 5, some 6, some 7, some 8] 3
          = rollingMeanShiftAt 28 (minPeriods 28) [some 5, some 6, some 7, some 99] 3
        ∧ rollingStdShiftAt 7 (minPeriods 7) [some 5, some 6, some 7, some 8] 3
          = rollingStdShiftAt 7 (minPeriods 7) [some 5, some 6, some 7, some 99] 3)
      ∧ (([some 5, some 6, some 7, some 8] : List (Option ℚ)).getD 3 none
            = ([some 5, some 6, some 7, some 99] : List (Option ℚ)).getD 3 none
          → zScoreAt [some 5, some 6, some 7, some 8] 3
              = zScoreAt [some 5, some 6, some 7, some 99] 3)
      ∧ (rollingMeanShiftAt 7 (minPeriods 7) [some 5, some 6, some 7, some 8] 3 = none
          ↔ priorWinCount 7 [some 5, some 6, some 7, some 8] 3 < minPeriods 7)
      ∧ (rollingStdShiftAt 7 (minPeriods 7) [some 5, some 6, some 7, some 8] 3 = none
          ↔ priorWinCount 7 [some 5, some 6, some 7, some 8] 3 < minPeriods 7)
      ∧ (rollingMeanShiftAt 28 (minPeriods 28) [some 5, some 6, some 7, some 8] 3 = none
          ↔ priorWinCount 28 [some 5, some 6, some 7, some 8] 3 < minPeriods 28)) :=
  ⟨by decide, rolling_baseline_no_lookahead _ _ 3 (by decide)⟩

/-- Claim C9: for a fully populated sleep series, the sleep debt of day `i`
is the trailing 7-day sum, including day `i` itself, of
`max 0 (TARGET_SLEEP_HOURS - sleep)`; and for three consecutive days with
sleep `[6, 7, 8]` the day-3 sleep debt is `2 + 1 + 0 = 3`. -/
theorem sleep_debt_trailing_sum (f : ℕ → ℚ) (n i : ℕ) (hn : i < n) (hi : 2 ≤ i) :
    sleepDebtAt ((List.range n).map (fun j => some (f j))) i
      = some (∑ j ∈ Finset.Ico (i + 1 - 7) (i + 1), max 0 (TARGET_SLEEP_HOURS - f j))
    ∧ sleepDebtAt [some 6, some 7, some 8] 2 = some 3 := by
  have hmax : ∀ x : ℚ, max 0 x = clipLower0 x := by
    intro x
    unfold clipLower0
    split
    · rename_i hx
      exact max_eq_left (le_of_lt hx)
    · rename_i hx
      exact max_eq_right (not_lt.mp hx)
  constructor
  · simp only [hmax]
    have hd : debtSeries ((List.range n).map (fun j => some (f j)))
        = (List.range n).map (fun j => some (clipLower0 (TARGET_SLEEP_HOURS - f j))) := by
      simp [debtSeries]
    have hwin : winVals 7 (debtSeries ((List.range n).map (fun j => some (f j)))) i
        = ((List.range (i + 1)).filter (fun j => decide (i < j + 7))).map
            (fun j => clipLower0 (TARGET_SLEEP_HOURS - f j)) := by
      rw [hd]
      unfold winVals
      have hmapeq : ((List.range (i + 1)).filter (fun j => decide (i < j + 7))).map
            (fun j => ((List.range n).map
              (fun k => some (clipLower0 (TARGET_SLEEP_HOURS - f k)))).getD j none)
          = ((List.range (i + 1)).filter (fun j => decide (i < j + 7))).map
            (fun j => some (clipLower0 (TARGET_SLEEP_HOURS - f j))) := by
        refine List.map_congr_left ?_
        intro j hj
        have hjn : j < n :=
          lt_of_le_of_lt
            (Nat.lt_succ_iff.mp (List.mem_range.mp (List.mem_of_mem_filter hj))) hn
        simp [List.getD_eq_getElem?_getD, List.getElem?_map, List.getElem?_range hjn]
      rw [hmapeq, List.filterMap_map]
      exact (List.filterMap_eq_map _) ▸ rfl
    have hIco : Finset.Ico (i + 1 - 7) (i + 1)
        = (Finset.range (i + 1)).filter (fun j => i < j + 7) := by
      ext j
      simp only [Finset.mem_Ico, Finset.mem_filter, Finset.mem_range]
      omega
    have hlen : (((List.range (i + 1)).filter (fun j => decide (i < j + 7)))).length
        = min (i + 1) 7 := by
      have hcard : ((Finset.range (i + 1)).filter (fun j => i < j + 7)).card
          = ((List.range (i + 1)).filter (fun j => decide (i < j + 7))).length := by
        simp [Finset.filter, Finset.range, Multiset.range, Finset.card]
      rw [← hcard, ← hIco, Nat.card_Ico]
      omega
    unfold sleepDebtAt
    rw [hwin]
    simp only [List.length_map, hlen]
    rw [if_pos (by omega)]
    congr 1
    rw [hIco]
    simp [Finset.sum, Finset.filter, Finset.range, Multiset.range]
  · norm_num [sleepDebtAt, winVals, debtSeries, clipLower0, TARGET_SLEEP_HOURS,
      List.range_succ, List.filterMap_cons, List.filterMap_nil]

/-- Witness for C9: the theorem applied to the concrete series `[6, 7, 8]`
at day index 2, with both hypotheses discharged there. -/
theorem sleep_debt_trailing_sum_witness :
    sleepDebtAt ((List.range 3).map
        (fun j => some (([6, 7, 8] : List ℚ).getD j 0))) 2
      = some (∑ j ∈ Finset.Ico (2 + 1 - 7) (2 + 1),
          max 0 (TARGET_SLEEP_HOURS - ([6, 7, 8] : List ℚ).getD j 0))
    ∧ sleepDebtAt [some 6, some 7, some 8] 2 = some 3 :=
  sleep_debt_trailing_sum (fun j => ([6, 7, 8] : List ℚ).getD j 0) 3 2
    (by decide) (by decide)

/-- Claim C10: the numeric coercion at the persistence boundary is total —
string inputs have commas removed and surrounding whitespace stripped before
conversion, every error raised by the conversion itself becomes None (null)
rather than propagating, `"1,234"` parses as 1234, and values that still
cannot be converted (arbitrary text, None) are stored as null. -/
theorem safe_float_total_coercion :
    (∀ v q, pyFloat (preprocessVal v) = Except.ok q → safe_float v = some q)
    ∧ (∀ v e, pyFloat (preprocessVal v) = Except.error e → safe_float v = none)
    ∧ preprocessVal (PyVal.vstr " 1,234 ") = PyVal.vstr "1234"
    ∧ safe_float (PyVal.vstr "1,234") = some 1234
    ∧ safe_float (PyVal.vstr " 12.5 ") = some (25 / 2)
    ∧ safe_float (PyVal.vstr "abc") = none
    ∧ safe_float PyVal.vnone = none := by
  refine ⟨?_, ?_, by decide, ?_, ?_, ?_, rfl⟩
  · intro v q h
    unfold safe_float
    rw [h]
  · intro v e h
    unfold safe_float
    rw [h]
  · norm_num [safe_float, pyFloat, pyFloatOfString, partsToRat,
      show preprocessVal (PyVal.vstr "1,234") = PyVal.vstr "1234" from by decide,
      show pyFloatParts "1234" = some (false, 1234, 0, 0) from by decide]
  · norm_num [safe_float, pyFloat, pyFloatOfString, partsToRat,
      show preprocessVal (PyVal.vstr " 12.5 ") = PyVal.vstr "12.5" from by decide,
      show pyFloatParts "12.5" = some (false, 12, 5, 1) from by decide]
  · norm_num [safe_float, pyFloat, pyFloatOfString,
      show preprocessVal (PyVal.vstr "abc") = PyVal.vstr "abc" from by decide,
      show pyFloatParts "abc" = none from by decide]

/-- Witness for C10: the two universally quantified error-absorption parts
applied at concrete inputs, hypotheses discharged there. -/
theorem safe_float_total_coercion_witness :
    safe_float (PyVal.vnum 7) = some 7 ∧ safe_float PyVal.vnone = none :=
  ⟨safe_float_total_coercion.1 (PyVal.vnum 7) 7 rfl,
   safe_float_total_coercion.2.1 PyVal.vnone "TypeError" rfl⟩

/-- Claim C4, counterexample: upserting `{sleep_hours: 7.5}` for a user and
date with no existing row inserts a row whose `workouts_count` is 0 (the
column default), not null — so the inserted row does not have "nulls
elsewhere" as the claim states. -/
theorem upsert_insert_nulls_elsewhere_counterexample :
    ((upsert_daily_metrics "alice"
        [{ date := some 0, sleep_hours := PyVal.vnum (15 / 2) }] {}).metrics.map
      (fun m => m.workouts_count)) = [some 0]
    ∧ (some (0 : ℤ)) ≠ (none : Option ℤ) :=
  ⟨rfl, by simp⟩

/-- Claim C4 (amended): if a row exists for (user, date) the upsert rewrites
only the fields whose payload value is present and non-null, preserving
every other column of that row (raw, derived, key and count columns alike);
if no row exists, a fresh row is inserted carrying the given fields, with
nulls elsewhere except `workouts_count`, which takes its column default 0.
In particular upserting `{sleep_hours: 7.5}` over a row having
`recovery_score = 80` keeps the 80 and sets `sleep_hours := 7.5`. -/
theorem upsert_partial_update_amended (u : String) (d : ℤ) (r : ParsedDaily)
    (db : Database) (hdate : r.date = some d) :
    ((∃ m ∈ db.metrics, m.user_id = u ∧ m.date = d) →
      (upsertOne u db r).metrics
        = updateFirst (fun m => m.user_id = u ∧ m.date = d)
            (applyPayload (mkPayload r)) db.metrics)
    ∧ ((¬ ∃ m ∈ db.metrics, m.user_id = u ∧ m.date = d) →
      (upsertOne u db r).metrics
        = db.metrics ++ [newDailyMetrics db.metricsNextId u d (mkPayload r)])
    ∧ (∀ p m, (applyPayload p m).rid = m.rid
        ∧ (applyPayload p m).user_id = m.user_id
        ∧ (applyPayload p m).date = m.date
        ∧ (applyPayload p m).workouts_count = m.workouts_count
        ∧ (applyPayload p m).recovery_baseline_7d = m.recovery_baseline_7d
        ∧ (applyPayload p m).recovery_z_score = m.recovery_z_score
        ∧ (applyPayload p m).acute_chronic_ratio = m.acute_chronic_ratio)
    ∧ (∀ p m, p.recovery_score = none →
        (applyPayload p m).recovery_score = m.recovery_score)
    ∧ (∀ p m v, p.sleep_hours = some v → (applyPayload p m).sleep_hours = some v)
    ∧ (∀ rid p, (newDailyMetrics rid u d p).sleep_hours = p.sleep_hours
        ∧ (newDailyMetrics rid u d p).recovery_score = p.recovery_score
        ∧ (newDailyMetrics rid u d p).workouts_count = some 0
        ∧ (newDailyMetrics rid u d p).recovery_baseline_7d = none
        ∧ (newDailyMetrics rid u d p).recovery_z_score = none) := by
  refine ⟨?_, ?_, ?_, ?_, ?_, ?_⟩
  · intro hex
    simp only [upsertOne, hdate]
    simp only [List.any_eq_true, decide_eq_true_eq]
    rw [if_pos hex]
  · intro hnex
    simp only [upsertOne, hdate]
    simp only [List.any_eq_true, decide_eq_true_eq]
    rw [if_neg hnex]
  · intro p m
    refine ⟨rfl, rfl, rfl, rfl, rfl, rfl, rfl⟩
  · intro p m hnone
    simp [applyPayload, hnone]
  · intro p m v hv
    simp [applyPayload, hv]
  · intro rid p
    refine ⟨rfl, rfl, rfl, rfl, rfl⟩

/-- Witness for C4 (amended): the concrete example from the specification —
a row with recovery 80, an upsert carrying only sleep 7.5 — run through the
theorem, every hypothesis discharged concretely; the untouched field keeps
its value and the supplied one is overwritten. -/
theorem upsert_partial_update_amended_witness :
    (({ date := some 0, sleep_hours := PyVal.vnum (15 / 2) } : ParsedDaily).date
        = some 0)
    ∧ ((mkPayload { date := some 0, sleep_hours := PyVal.vnum (15 / 2) }).recovery_score
        = none →
      (applyPayload (mkPayload { date := some 0, sleep_hours := PyVal.vnum (15 / 2) })
          ({ rid := 1, user_id := "bob", date := 0,
             recovery_score := some 80 } : DailyMetrics)).recovery_score
        = ({ rid := 1, user_id := "bob", date := 0,
             recovery_score := some 80 } : DailyMetrics).recovery_score) :=
  ⟨rfl, fun h =>
    (upsert_partial_update_amended "bob" 0
      { date := some 0, sleep_hours := PyVal.vnum (15 / 2) }
      { metrics := [({ rid := 1, user_id := "bob", date := 0,
                       recovery_score := some 80 } : DailyMetrics)] } rfl).2.2.2.1
      (mkPayload { date := some 0, sleep_hours := PyVal.vnum (15 / 2) })
      ({ rid := 1, user_id := "bob", date := 0,
         recovery_score := some 80 } : DailyMetrics) h⟩

theorem mem_insertByDate {x m : DailyMetrics} {l : List DailyMetrics} :
    x ∈ insertByDate m l ↔ x = m ∨ x ∈ l := by
  induction l with
  | nil => simp [insertByDate]
  | cons y ys ih =>
      unfold insertByDate
      split
      · simp
      · simp only [List.mem_cons, ih]
        tauto

theorem mem_sortByDate {x : DailyMetrics} {l : List DailyMetrics} :
    x ∈ sortByDate l ↔ x ∈ l := by
  induction l with
  | nil => simp [sortByDate]
  | cons y ys ih =>
      unfold sortByDate
      rw [mem_insertByDate]
      simp [ih]

theorem eq_of_mem_pairwise_rid {a b : DailyMetrics} {l : List DailyMetrics}
    (hp : l.Pairwise (fun x y => x.rid ≠ y.rid))
    (ha : a ∈ l) (hb : b ∈ l) (hr : a.rid = b.rid) : a = b := by
  induction l with
  | nil => cases ha
  | cons y ys ih =>
      rcases List.pairwise_cons.mp hp with ⟨hy, hys⟩
      rcases List.mem_cons.mp ha with ha0 | ha1
      · rcases List.mem_cons.mp hb with hb0 | hb1
        · rw [ha0, hb0]
        · exact absurd (ha0 ▸ hr) (hy b hb1)
      · rcases List.mem_cons.mp hb with hb0 | hb1
        · exact absurd (hb0 ▸ hr.symm) (hy a ha1)
        · exact ih hys ha1 hb1

theorem syncRow_preserves (ws : List Workout) (m : DailyMetrics) :
    (syncRow ws m).rid = m.rid ∧ (syncRow ws m).user_id = m.user_id
    ∧ (syncRow ws m).date = m.date
    ∧ (syncRow ws m).recovery_score = m.recovery_score
    ∧ (syncRow ws m).sleep_hours = m.sleep_hours
    ∧ (syncRow ws m).hrv = m.hrv
    ∧ (syncRow ws m).resting_hr = m.resting_hr
    ∧ (syncRow ws m).extra = m.extra := by
  unfold syncRow
  split <;> (dsimp only; split <;> exact ⟨rfl, rfl, rfl, rfl, rfl, rfl, rfl, rfl⟩)

theorem featureRow_preserves (rows : List DailyMetrics) (i : ℕ) (m : DailyMetrics) :
    (featureRow rows i m).rid = m.rid ∧ (featureRow rows i m).user_id = m.user_id
    ∧ (featureRow rows i m).date = m.date
    ∧ (featureRow rows i m).recovery_score = m.recovery_score
    ∧ (featureRow rows i m).sleep_hours = m.sleep_hours
    ∧ (featureRow rows i m).hrv = m.hrv
    ∧ (featureRow rows i m).resting_hr = m.resting_hr
    ∧ (featureRow rows i m).extra = m.extra
    ∧ (featureRow rows i m).workouts_count = m.workouts_count
    ∧ (featureRow rows i m).strain_score = m.strain_score :=
  ⟨rfl, rfl, rfl, rfl, rfl, rfl, rfl, rfl, rfl, rfl⟩

theorem sliceRecomputeRow_preserves (S : List DailyMetrics) (W : List Workout)
    (hrid : S.Pairwise (fun a b => a.rid ≠ b.rid)) (m : DailyMetrics) (hm : m ∈ S) :
    (sliceRecomputeRow S W m).rid = m.rid
    ∧ (sliceRecomputeRow S W m).user_id = m.user_id
    ∧ (sliceRecomputeRow S W m).date = m.date
    ∧ (sliceRecomputeRow S W m).recovery_score = m.recovery_score
    ∧ (sliceRecomputeRow S W m).sleep_hours = m.sleep_hours
    ∧ (sliceRecomputeRow S W m).hrv = m.hrv
    ∧ (sliceRecomputeRow S W m).resting_hr = m.resting_hr
    ∧ (sliceRecomputeRow S W m).extra = m.extra := by
  unfold sliceRecomputeRow
  cases hfind : ((sortByDate S).map (syncRow W)).enum.find?
      (fun p => p.2.rid == m.rid) with
  | none => exact ⟨rfl, rfl, rfl, rfl, rfl, rfl, rfl, rfl⟩
  | some p =>
      obtain ⟨i0, x⟩ := p
      have hpred := List.find?_some hfind
      have hmem : (i0, x) ∈ ((sortByDate S).map (syncRow W)).enum :=
        List.mem_of_find?_eq_some hfind
      have hxmem : x ∈ (sortByDate S).map (syncRow W) := by
        have : x ∈ (((sortByDate S).map (syncRow W)).enum.map Prod.snd) :=
          List.mem_map.mpr ⟨(i0, x), hmem, rfl⟩
        simpa [List.enum_map_snd] using this
      obtain ⟨x', hx'mem, hx'⟩ := List.mem_map.mp hxmem
      have hx'S : x' ∈ S := mem_sortByDate.mp hx'mem
      have hxrid : x.rid = m.rid := by simpa using hpred
      have hx'rid : x'.rid = m.rid := by
        rw [← hxrid, ← hx']
        exact ((syncRow_preserves W x').1).symm
      have hx'm : x' = m := eq_of_mem_pairwise_rid hrid hx'S hm hx'rid
      have hx : x = syncRow W m := by rw [← hx', hx'm]
      subst hx
      obtain ⟨f1, f2, f3, f4, f5, f6, f7, f8, -, -⟩ :=
        featureRow_preserves ((sortByDate S).map (syncRow W)) i0 (syncRow W m)
      obtain ⟨s1, s2, s3, s4, s5, s6, s7, s8⟩ := syncRow_preserves W m
      exact ⟨f1.trans s1, f2.trans s2, f3.trans s3, f4.trans s4, f5.trans s5,
        f6.trans s6, f7.trans s7, f8.trans s8⟩

/-- Claim C2: a failing archive-ingestion run does NOT leave the prior
dataset intact — the reset is committed together with the Upload-record
creation before parsing begins, so after the failure (here: a zip with no
CSV files) the previously committed DailyMetric and Workout rows of the user
are gone for good, while the run itself is marked failed.  This contradicts
the comment inside `clear_existing_data` (the commit was removed there
precisely so that a failed ingestion could roll the reset back) and the
specified transactional contract. -/
theorem ingest_failure_loses_prior_data :
    daveFailedRun.committed.metrics = []
    ∧ daveFailedRun.committed.workouts = []
    ∧ daveFailedRun.committed.uploads.map (fun up => up.status)
        = [UploadStatus.failed]
    ∧ davePrior.metrics ≠ [] := by
  refine ⟨rfl, rfl, rfl, by simp [davePrior]⟩

/-- Claim C6, counterexample: recomputing features for `carol` — whose
single row has `workouts_count = 0` while one Workout row exists on that
date — rewrites the raw field `workouts_count` of the persisted row from 0
to 1, so the engine does not leave every raw field unchanged. -/
theorem recompute_mutates_raw_counterexample :
    ((recompute_daily_features "carol" carolDb).metrics.map
        (fun m => m.workouts_count)) = [some 1]
    ∧ (carolDb.metrics.map (fun m => m.workouts_count)) = [some 0]
    ∧ some (1 : ℤ) ≠ some (0 : ℤ) :=
  ⟨rfl, rfl, by simp⟩

/-- Claim C6 (amended): recomputing derived features updates the existing
rows in place — never inserting or deleting — and leaves the raw fields
recovery_score, sleep_hours, hrv, resting_hr and extra (as well as the keys)
of every row unchanged, and rows of other users entirely unchanged; but it
does rewrite `workouts_count` (to the date's workout count, or `x or 0`) and
backfills a null-or-zero `strain_score` from workout strain sums.  The
workout, upload and insight stores are untouched. -/
theorem recompute_frame_amended (u : String) (db : Database)
    (hrid : db.metrics.Pairwise (fun a b => a.rid ≠ b.rid)) :
    (recompute_daily_features u db).metrics.length = db.metrics.length
    ∧ (recompute_daily_features u db).workouts = db.workouts
    ∧ (recompute_daily_features u db).uploads = db.uploads
    ∧ (recompute_daily_features u db).insights = db.insights
    ∧ (∀ i : ℕ,
        ((recompute_daily_features u db).metrics[i]?).map
            (fun m => (m.rid, m.user_id, m.date, m.recovery_score, m.sleep_hours,
              m.hrv, m.resting_hr, m.extra))
          = (db.metrics[i]?).map
            (fun m => (m.rid, m.user_id, m.date, m.recovery_score, m.sleep_hours,
              m.hrv, m.resting_hr, m.extra)))
    ∧ (∀ i : ℕ, ∀ m, db.metrics[i]? = some m → m.user_id ≠ u →
        (recompute_daily_features u db).metrics[i]? = some m) := by
  refine ⟨List.length_map _ _, rfl, rfl, rfl, ?_, ?_⟩
  · intro i
    unfold recompute_daily_features
    simp only [List.getElem?_map]
    cases hi : db.metrics[i]? with
    | none => rfl
    | some m =>
        have hm : m ∈ db.metrics := List.getElem?_mem hi
        simp only [Option.map_some']
        by_cases hu : m.user_id = u
        · rw [if_pos hu]
          have hmf : m ∈ db.metrics.filter (fun m => m.user_id = u) :=
            List.mem_filter.mpr ⟨hm, by simpa using hu⟩
          obtain ⟨p1, p2, p3, p4, p5, p6, p7, p8⟩ :=
            sliceRecomputeRow_preserves
              (db.metrics.filter (fun m => m.user_id = u))
              (db.workouts.filter (fun w => w.user_id = u))
              (hrid.filter _) m hmf
          simp only [p1, p2, p3, p4, p5, p6, p7, p8]
        · rw [if_neg hu]
  · intro i m hi hu
    unfold recompute_daily_features
    simp only [List.getElem?_map, hi, Option.map_some']
    rw [if_neg hu]

/-- Witness for C6 (amended): the theorem applied to the concrete `carol`
store, whose single-row metric table trivially has pairwise-distinct keys. -/
theorem recompute_frame_amended_witness :
    carolDb.metrics.Pairwise (fun a b => a.rid ≠ b.rid)
    ∧ (recompute_daily_features "carol" carolDb).metrics.length
        = carolDb.metrics.length :=
  ⟨by simp [carolDb], (recompute_frame_amended "carol" carolDb
    (by simp [carolDb])).1⟩

theorem waitForRateLimit_clock_ge (st : RLState) :
    st.clock + MIN_DELAY_MS ≤ (waitForRateLimit st).clock := by
  unfold waitForRateLimit
  dsimp only
  split_ifs <;> (unfold MIN_DELAY_MS; omega)

theorem sendTime_gap (n : ℕ) : sendTime n + MIN_DELAY_MS ≤ sendTime (n + 1) :=
  waitForRateLimit_clock_ge (rlStateAt (n + 1))

theorem sendTime_gap_mul (i k : ℕ) :
    sendTime i + MIN_DELAY_MS * (k : ℤ) ≤ sendTime (i + k) := by
  induction k with
  | zero => simp
  | succ j ih =>
      have h := sendTime_gap (i + j)
      have hidx : i + (j + 1) = (i + j) + 1 := by omega
      rw [hidx]
      push_cast
      unfold MIN_DELAY_MS at ih h ⊢
      omega

theorem rlRun_spec : ∀ n, (rlRun n).1 = rlStateAt n
    ∧ (rlRun n).2 = (List.range n).map sendTime := by
  intro n
  induction n with
  | zero => exact ⟨rfl, rfl⟩
  | succ k ih =>
      refine ⟨?_, ?_⟩
      · show waitForRateLimit (rlRun k).1 = _
        rw [ih.1]
        rfl
      · show (rlRun k).2 ++ [(waitForRateLimit (rlRun k).1).clock] = _
        rw [ih.1, ih.2, List.range_succ, List.map_append]
        rfl

set_option maxRecDepth 8000 in
/-- Claim C7, counterexample: issuing 101 back-to-back requests through a
fresh client, every one of the 101 accepted requests is sent inside the
61-second window (0 ms, 61000 ms] — the per-minute cap of 100 is exceeded in
a 61-second sliding window (the sends fall at 600 ms, 1200 ms, …, 60600 ms:
the recorded timestamps predate the sends by the 600 ms minimum delay, so
the cap test never blocks this schedule). -/
theorem rate_limit_window_counterexample :
    ((rlRun 101).2.filter (fun t => 0 < t ∧ t ≤ 61000)).length = 101
    ∧ (rlRun 101).2 = (List.range 101).map sendTime
    ∧ RATE_LIMIT_PER_MINUTE < 101 :=
  ⟨by decide, (rlRun_spec 101).2, by decide⟩

/-- Claim C7 (amended): the limiter prunes timestamps older than 60 s,
sleeps while the recorded window is at the per-minute cap and until the next
UTC midnight at the daily cap, and always imposes the ≈600 ms minimum delay;
consequently consecutive accepted requests are at least 600 ms apart, and no
61-second sliding window ever contains more than 102 accepted requests.
(The stated bound of 100 is not achieved: the recorded timestamps lag the
actual send instants, and 101 sends can fall inside one 61-second window.) -/
theorem rate_limit_bound_amended (x : ℤ) (N : ℕ) :
    (∀ n, sendTime n + MIN_DELAY_MS ≤ sendTime (n + 1))
    ∧ ((Finset.range N).filter
        (fun n => x < sendTime n ∧ sendTime n ≤ x + 61000)).card ≤ 102 := by
  refine ⟨sendTime_gap, ?_⟩
  set S := (Finset.range N).filter
    (fun n => x < sendTime n ∧ sendTime n ≤ x + 61000) with hS
  by_cases hne : S.Nonempty
  · have hsub : S ⊆ Finset.Icc (S.min' hne) (S.min' hne + 101) := by
      intro j hj
      have hji : S.min' hne ≤ j := Finset.min'_le S j hj
      have h1 : x < sendTime (S.min' hne) :=
        (Finset.mem_filter.mp (S.min'_mem hne)).2.1
      have h2 : sendTime j ≤ x + 61000 := (Finset.mem_filter.mp hj).2.2
      have h3 : sendTime (S.min' hne)
          + MIN_DELAY_MS * ((j - S.min' hne : ℕ) : ℤ)
            ≤ sendTime (S.min' hne + (j - S.min' hne)) :=
        sendTime_gap_mul (S.min' hne) (j - S.min' hne)
      rw [Nat.add_sub_cancel' hji] at h3
      have hk : (j - S.min' hne : ℕ) ≤ 101 := by
        unfold MIN_DELAY_MS at h3
        omega
      exact Finset.mem_Icc.mpr ⟨hji, by omega⟩
    calc S.card ≤ (Finset.Icc (S.min' hne) (S.min' hne + 101)).card :=
          Finset.card_le_card hsub
      _ = 102 := by rw [Nat.card_Icc]; omega
  · rw [Finset.not_nonempty_iff_eq_empty.mp hne]
    simp

theorem getWithRetryAux_all429 (responses : ℕ → HttpResponse) :
    ∀ fuel k t, (∀ j, j < fuel → (responses (k + j)).status = 429) → fuel ≠ 0 →
      (getWithRetryAux responses fuel k t).1 = .error (.httpStatus 429) := by
  intro fuel
  induction fuel with
  | zero => intro k t _ hne; exact absurd rfl hne
  | succ f ih =>
      intro k t h _
      have hk : (responses k).status = 429 := by simpa using h 0 (Nat.succ_pos f)
      unfold getWithRetryAux
      rw [if_pos hk]
      by_cases hf : f = 0
      · rw [if_pos hf]
      · rw [if_neg hf]
        dsimp only
        exact ih (k + 1) _ (fun j hj => by
          have := h (j + 1) (by omega)
          simpa [Nat.add_assoc, Nat.add_comm 1 j] using this) hf

/-- Claim C8: on a 429 the client waits Retry-After seconds when the header
is present, else `2 ^ attempt` seconds, before the next attempt; after the
configured maximum of 3 attempts the call propagates a rate-limited error
(an HTTPStatusError carrying status 429, distinguishable from every other
failure); concretely, a server always answering 429 with Retry-After 3
produces attempts at 0 s, 3 s and 6 s — at least 3 seconds elapse before
each next attempt — and the rate-limited error. -/
theorem retry_policy_c8 :
    (∀ responses fuel k t s, (responses k).status = 429 →
      (responses k).retryAfter = some s → fuel ≠ 0 →
      (getWithRetryAux responses (fuel + 1) k t).2
        = t :: (getWithRetryAux responses fuel (k + 1) (t + s)).2)
    ∧ (∀ responses fuel k t, (responses k).status = 429 →
      (responses k).retryAfter = none → fuel ≠ 0 →
      (getWithRetryAux responses (fuel + 1) k t).2
        = t :: (getWithRetryAux responses fuel (k + 1) (t + 2 ^ k)).2)
    ∧ (∀ responses, (∀ k, k < MAX_RETRIES → (responses k).status = 429) →
      (getWithRetry responses).1 = .error (.httpStatus 429))
    ∧ getWithRetry (fun _ => { status := 429, retryAfter := some 3 })
        = (.error (.httpStatus 429), [0, 3, 6]) := by
  refine ⟨?_, ?_, ?_, rfl⟩
  · intro responses fuel k t s h429 hra hf
    cases fuel with
    | zero => exact absurd rfl hf
    | succ f =>
        unfold getWithRetryAux
        rw [if_pos h429, if_neg hf]
        simp only [hra]
        rfl
  · intro responses fuel k t h429 hra hf
    cases fuel with
    | zero => exact absurd rfl hf
    | succ f =>
        unfold getWithRetryAux
        rw [if_pos h429, if_neg hf]
        simp only [hra]
        rfl
  · intro responses h
    exact getWithRetryAux_all429 responses MAX_RETRIES 0 0
      (fun j hj => by simpa using h j hj) (by decide)

/-- Witness for C8: the three quantified parts applied to the concrete
always-429 server with Retry-After 3, hypotheses discharged there. -/
theorem retry_policy_c8_witness :
    ((getWithRetryAux (fun _ => { status := 429, retryAfter := some 3 }) 3 0 0).2
      = 0 :: (getWithRetryAux (fun _ => { status := 429, retryAfter := some 3 })
          2 1 3).2)
    ∧ (getWithRetryAux (fun _ => ({ status := 429 } : HttpResponse)) 3 0 0).2
      = 0 :: (getWithRetryAux (fun _ => ({ status := 429 } : HttpResponse)) 2 1 1).2
    ∧ (getWithRetry (fun _ => { status := 429, retryAfter := some 3 })).1
      = .error (.httpStatus 429) :=
  ⟨retry_policy_c8.1 _ 2 0 0 3 rfl rfl (by decide),
   by
    have := retry_policy_c8.2.1 (fun _ => ({ status := 429 } : HttpResponse))
      2 0 0 rfl rfl (by decide)
    simpa using this,
   retry_policy_c8.2.2.1 _ (fun k _ => rfl)⟩

/-- Claim C5, counterexample: the consolidated-CSV parser has no batch-global
offset fallback.  In the batch [A, B] where A carries offset "+05:30" and B
carries none, B starting at raw clock 23:30 of day 0, the parser assigns B
day 0 (raw timestamp treated as local), while the claimed rule — use the
first offset found anywhere in the batch — yields day 1. -/
theorem csv_no_global_offset_counterexample :
    csvLocalDate { cycle_start := some 1410, timezone_offset := none } = some 0
    ∧ specCycleDate
        [{ cycle_start := some 0, timezone_offset := some "+05:30" },
         { cycle_start := some 1410, timezone_offset := none }]
        { cycle_start := some 1410, timezone_offset := none } = some 1
    ∧ (0 : ℤ) ≠ 1 :=
  ⟨rfl, rfl, by decide⟩

/-- Claim C5 (amended): the assigned calendar date is the local date of the
record's START time, never its end time.  A record's own parseable offset is
applied in both ingestion paths.  Absent a record offset, the
consolidated-CSV parser treats the raw timestamp as already local (it has no
batch-global fallback); the API-sync path falls back to the first truthy
offset found in the batch, then to the raw start clock.  In both paths a
cycle with local start 23:30 on day N and local end 07:00 on day N+1 is
assigned day N. -/
theorem cycle_date_assignment_amended :
    (∀ (t off : ℤ) (s : String) (e : Option ℤ), parseOffsetMinutes s = some off →
      csvLocalDate { cycle_start := some t, timezone_offset := some s,
                     cycle_end := e } = some (dateOf (t + off)))
    ∧ (∀ (t : ℤ) (e : Option ℤ),
      csvLocalDate { cycle_start := some t, timezone_offset := none,
                     cycle_end := e } = some (dateOf t))
    ∧ (∀ (cid : ℕ) (t e off : ℤ) (s : String) (g : Option String),
      parseOffsetMinutes s = some off → s ≠ "" →
      apiAssignDate g { cid := cid, start := some t, stop := some e,
                        timezone_offset := some s } = some (dateOf (t + off)))
    ∧ (∀ (cid : ℕ) (t e off : ℤ) (s : String),
      parseOffsetMinutes s = some off → s ≠ "" →
      apiAssignDate (some s) { cid := cid, start := some t, stop := some e,
                               timezone_offset := none } = some (dateOf (t + off)))
    ∧ (∀ (cid : ℕ) (t e : ℤ),
      apiAssignDate none { cid := cid, start := some t, stop := some e,
                           timezone_offset := none } = some (dateOf t))
    ∧ csvLocalDate { cycle_start := some 1080, timezone_offset := some "+05:30",
                     cycle_end := some 1530 } = some 0
    ∧ apiAssignDate none { cid := 1, start := some 1080, stop := some 1530,
                           timezone_offset := some "+05:30" } = some 0
    ∧ dateOf (1530 + 330) = 1 := by
  refine ⟨?_, fun t e => rfl, ?_, ?_, fun cid t e => rfl, rfl, rfl, by decide⟩
  · intro t off s e hparse
    simp [csvLocalDate, hparse]
  · intro cid t e off s g hparse hs
    simp [apiAssignDate, pyTruthyStr, hs, hparse]
  · intro cid t e off s hparse hs
    simp [apiAssignDate, pyTruthyStr, hs, hparse]

/-- Witness for C5 (amended): the offset-bearing clauses applied at the
concrete 23:30 example, hypotheses discharged concretely. -/
theorem cycle_date_assignment_amended_witness :
    csvLocalDate { cycle_start := some 1080, timezone_offset := some "+05:30",
                   cycle_end := some 1530 } = some (dateOf (1080 + 330))
    ∧ apiAssignDate (some "+05:30")
        { cid := 2, start := some 1080, stop := some 1530,
          timezone_offset := none } = some (dateOf (1080 + 330)) :=
  ⟨cycle_date_assignment_amended.1 1080 330 "+05:30" (some 1530) rfl,
   cycle_date_assignment_amended.2.2.2.1 2 1080 1530 330 "+05:30" rfl
     (by decide)⟩

/-! ### Generic list lemmas for the idempotence proof -/

theorem updateFirst_nil {α : Type} (p : α → Bool) (f : α → α) :
    updateFirst p f [] = [] := rfl

theorem updateFirst_cons {α : Type} (p : α → Bool) (f : α → α) (x : α)
    (xs : List α) :
    updateFirst p f (x :: xs)
      = if p x = true then f x :: xs else x :: updateFirst p f xs := rfl

theorem filter_updateFirst {α : Type} {p q : α → Bool} {f : α → α}
    (hpq : ∀ x, p x = true → q x = true) (hf : ∀ x, q (f x) = q x) :
    ∀ l : List α, (updateFirst p f l).filter q = updateFirst p f (l.filter q) := by
  intro l
  induction l with
  | nil => rfl
  | cons x xs ih =>
      rw [updateFirst_cons]
      by_cases hx : p x = true
      · have hqx := hpq x hx
        rw [if_pos hx]
        simp only [List.filter_cons, hf x, hqx, if_true]
        rw [updateFirst_cons, if_pos hx]
      · rw [if_neg hx]
        by_cases hqx : q x = true
        · simp only [List.filter_cons, hqx, if_true, ih]
          rw [updateFirst_cons, if_neg hx]
        · have hqx' : q x = false := by simpa using hqx
          simp only [List.filter_cons, hqx', Bool.false_eq_true, if_false, ih]

theorem filter_updateFirst_none {α : Type} {p q : α → Bool} {f : α → α}
    (hpq : ∀ x, p x = true → q x = false) (hf : ∀ x, q (f x) = q x) :
    ∀ l : List α, (updateFirst p f l).filter q = l.filter q := by
  intro l
  induction l with
  | nil => rfl
  | cons x xs ih =>
      rw [updateFirst_cons]
      by_cases hx : p x = true
      · rw [if_pos hx]
        simp only [List.filter_cons, hf x, hpq x hx, Bool.false_eq_true, if_false]
      · rw [if_neg hx]
        simp only [List.filter_cons, ih]

theorem any_filter_restrict {α : Type} {p q : α → Bool}
    (hpq : ∀ x, p x = true → q x = true) :
    ∀ l : List α, (l.filter q).any p = l.any p := by
  intro l
  induction l with
  | nil => rfl
  | cons x xs ih =>
      by_cases hqx : q x = true
      · simp only [List.filter_cons, hqx, if_true, List.any_cons, ih]
      · have hqx' : q x = false := by simpa using hqx
        have hpx : p x = false := by
          cases hp : p x
          · rfl
          · exact absurd (hpq x hp) (by simp [hqx'])
        simp only [List.filter_cons, hqx', Bool.false_eq_true, if_false,
          List.any_cons, hpx, Bool.false_or, ih]

theorem updateFirst_map {α : Type} {p : α → Bool} {f g : α → α}
    (hp : ∀ x, p (g x) = p x) (hc : ∀ x, f (g x) = g (f x)) :
    ∀ l : List α, updateFirst p f (l.map g) = (updateFirst p f l).map g := by
  intro l
  induction l with
  | nil => rfl
  | cons x xs ih =>
      simp only [List.map_cons]
      rw [updateFirst_cons, updateFirst_cons]
      by_cases hx : p x = true
      · rw [if_pos (by rw [hp x]; exact hx), if_pos hx]
        simp [hc x]
      · rw [if_neg (by rw [hp x]; exact hx), if_neg hx]
        simp [ih]

theorem any_map_congr {α : Type} {p : α → Bool} {g : α → α}
    (hp : ∀ x, p (g x) = p x) (l : List α) : (l.map g).any p = l.any p := by
  induction l with
  | nil => rfl
  | cons x xs ih => simp only [List.map_cons, List.any_cons, hp x, ih]

/-! ### Commutation of the ingestion pipeline with the user slice -/

theorem applyPayload_addRid (p : Payload) (k : ℕ) (m : DailyMetrics) :
    applyPayload p (addRid k m) = addRid k (applyPayload p m) := rfl

theorem newDailyMetrics_addRid (n k : ℕ) (u : String) (d : ℤ) (p : Payload) :
    newDailyMetrics (n + k) u d p = addRid k (newDailyMetrics n u d p) := rfl

theorem stripRid_addRid (k : ℕ) (m : DailyMetrics) :
    stripRid (addRid k m) = stripRid m := rfl

theorem stripWRid_addWRid (k : ℕ) (w : Workout) :
    stripWRid (addWRid k w) = stripWRid w := rfl

theorem upsertOne_slice (u : String) (db : Database) (r : ParsedDaily) :
    (upsertOne u db r).metrics.filter (fun m => m.user_id = u)
      = (sliceUpsertOne u
          (db.metrics.filter (fun m => m.user_id = u), db.metricsNextId) r).1
    ∧ (upsertOne u db r).metricsNextId
      = (sliceUpsertOne u
          (db.metrics.filter (fun m => m.user_id = u), db.metricsNextId) r).2
    ∧ (upsertOne u db r).metrics.filter (fun m => ¬ m.user_id = u)
      = db.metrics.filter (fun m => ¬ m.user_id = u)
    ∧ (upsertOne u db r).workouts = db.workouts
    ∧ (upsertOne u db r).workoutsNextId = db.workoutsNextId
    ∧ (upsertOne u db r).uploads = db.uploads
    ∧ (upsertOne u db r).insights = db.insights := by
  unfold upsertOne sliceUpsertOne
  cases r.date with
  | none => exact ⟨rfl, rfl, rfl, rfl, rfl, rfl, rfl⟩
  | some d =>
      dsimp only
      have hpq : ∀ m : DailyMetrics,
          decide (m.user_id = u ∧ m.date = d) = true →
          decide (m.user_id = u) = true := by
        intro m h
        simp only [decide_eq_true_eq] at h ⊢
        exact h.1
      have hany : (db.metrics.filter (fun m => m.user_id = u)).any
            (fun m => m.user_id = u ∧ m.date = d)
          = db.metrics.any (fun m => m.user_id = u ∧ m.date = d) :=
        any_filter_restrict hpq db.metrics
      by_cases hb : db.metrics.any (fun m => m.user_id = u ∧ m.date = d) = true
      · rw [if_pos hb, if_pos (hany.trans hb)]
        refine ⟨?_, rfl, ?_, rfl, rfl, rfl, rfl⟩
        · exact @filter_updateFirst DailyMetrics
            (fun m => decide (m.user_id = u ∧ m.date = d))
            (fun m => decide (m.user_id = u))
            (applyPayload (mkPayload r)) hpq (fun x => rfl) db.metrics
        · refine @filter_updateFirst_none DailyMetrics
            (fun m => decide (m.user_id = u ∧ m.date = d))
            (fun m => decide ¬ m.user_id = u)
            (applyPayload (mkPayload r)) ?_ (fun x => rfl) db.metrics
          intro m h
          simp only [decide_eq_true_eq] at h
          simp [h.1]
      · rw [if_neg hb, if_neg (fun hcon => hb (hany ▸ hcon))]
        refine ⟨?_, rfl, ?_, rfl, rfl, rfl, rfl⟩
        · simp [List.filter_append, newDailyMetrics]
        · simp [List.filter_append, newDailyMetrics]

theorem upsert_all_slice (u : String) (rows : List ParsedDaily) :
    ∀ db : Database,
    (upsert_daily_metrics u rows db).metrics.filter (fun m => m.user_id = u)
      = (sliceUpsertAll u rows
          (db.metrics.filter (fun m => m.user_id = u), db.metricsNextId)).1
    ∧ (upsert_daily_metrics u rows db).metricsNextId
      = (sliceUpsertAll u rows
          (db.metrics.filter (fun m => m.user_id = u), db.metricsNextId)).2
    ∧ (upsert_daily_metrics u rows db).metrics.filter (fun m => ¬ m.user_id = u)
      = db.metrics.filter (fun m => ¬ m.user_id = u)
    ∧ (upsert_daily_metrics u rows db).workouts = db.workouts
    ∧ (upsert_daily_metrics u rows db).workoutsNextId = db.workoutsNextId
    ∧ (upsert_daily_metrics u rows db).uploads = db.uploads
    ∧ (upsert_daily_metrics u rows db).insights = db.insights := by
  induction rows with
  | nil => exact fun db => ⟨rfl, rfl, rfl, rfl, rfl, rfl, rfl⟩
  | cons r rest ih =>
      intro db
      have hstep := upsertOne_slice u db r
      have hrest := ih (upsertOne u db r)
      obtain ⟨h1, h2, h3, h4, h5, h6, h7⟩ := hrest
      refine ⟨?_, ?_, ?_, ?_, ?_, ?_, ?_⟩
      · show (upsert_daily_metrics u rest (upsertOne u db r)).metrics.filter _ = _
        rw [h1, hstep.1, hstep.2.1]
        rfl
      · show (upsert_daily_metrics u rest (upsertOne u db r)).metricsNextId = _
        rw [h2, hstep.1, hstep.2.1]
        rfl
      · show (upsert_daily_metrics u rest (upsertOne u db r)).metrics.filter _ = _
        rw [h3, hstep.2.2.1]
      · show (upsert_daily_metrics u rest (upsertOne u db r)).workouts = _
        rw [h4, hstep.2.2.2.1]
      · show (upsert_daily_metrics u rest (upsertOne u db r)).workoutsNextId = _
        rw [h5, hstep.2.2.2.2.1]
      · show (upsert_daily_metrics u rest (upsertOne u db r)).uploads = _
        rw [h6, hstep.2.2.2.2.2.1]
      · show (upsert_daily_metrics u rest (upsertOne u db r)).insights = _
        rw [h7, hstep.2.2.2.2.2.2]

theorem workoutKeyMatches_user {u : String} {w : ParsedWorkout} {e : Workout}
    (h : workoutKeyMatches u w e = true) : e.user_id = u := by
  simp only [workoutKeyMatches, decide_eq_true_eq] at h
  exact h.1

theorem persistStep_slice (u : String) (acc : Database × ℕ × ℕ) (w : ParsedWorkout) :
    (persistStep u acc w).1.workouts.filter (fun e => e.user_id = u)
      = (slicePersistOne u
          (acc.1.workouts.filter (fun e => e.user_id = u), acc.1.workoutsNextId) w).1
    ∧ (persistStep u acc w).1.workoutsNextId
      = (slicePersistOne u
          (acc.1.workouts.filter (fun e => e.user_id = u), acc.1.workoutsNextId) w).2
    ∧ (persistStep u acc w).1.workouts.filter (fun e => ¬ e.user_id = u)
      = acc.1.workouts.filter (fun e => ¬ e.user_id = u)
    ∧ (persistStep u acc w).1.metrics = acc.1.metrics
    ∧ (persistStep u acc w).1.metricsNextId = acc.1.metricsNextId
    ∧ (persistStep u acc w).1.uploads = acc.1.uploads
    ∧ (persistStep u acc w).1.insights = acc.1.insights := by
  unfold persistStep slicePersistOne
  have hany : (acc.1.workouts.filter (fun e => e.user_id = u)).any
        (workoutKeyMatches u w)
      = acc.1.workouts.any (workoutKeyMatches u w) :=
    any_filter_restrict (fun e he => by simp [workoutKeyMatches_user he])
      acc.1.workouts
  by_cases hb : acc.1.workouts.any (workoutKeyMatches u w) = true
  · rw [if_pos hb, if_pos (hany.trans hb)]
    exact ⟨rfl, rfl, rfl, rfl, rfl, rfl, rfl⟩
  · rw [if_neg hb, if_neg (fun hcon => hb (hany ▸ hcon))]
    refine ⟨?_, rfl, ?_, rfl, rfl, rfl, rfl⟩
    · simp [insertWorkout, List.filter_append]
    · simp [insertWorkout, List.filter_append]

theorem persist_fold_slice (u : String) (ws : List ParsedWorkout) :
    ∀ (acc : Database × ℕ × ℕ),
    (ws.foldl (persistStep u) acc).1.workouts.filter (fun e => e.user_id = u)
      = (slicePersistAll u ws
          (acc.1.workouts.filter (fun e => e.user_id = u), acc.1.workoutsNextId)).1
    ∧ (ws.foldl (persistStep u) acc).1.workoutsNextId
      = (slicePersistAll u ws
          (acc.1.workouts.filter (fun e => e.user_id = u), acc.1.workoutsNextId)).2
    ∧ (ws.foldl (persistStep u) acc).1.workouts.filter (fun e => ¬ e.user_id = u)
      = acc.1.workouts.filter (fun e => ¬ e.user_id = u)
    ∧ (ws.foldl (persistStep u) acc).1.metrics = acc.1.metrics
    ∧ (ws.foldl (persistStep u) acc).1.metricsNextId = acc.1.metricsNextId
    ∧ (ws.foldl (persistStep u) acc).1.uploads = acc.1.uploads
    ∧ (ws.foldl (persistStep u) acc).1.insights = acc.1.insights := by
  induction ws with
  | nil => exact fun acc => ⟨rfl, rfl, rfl, rfl, rfl, rfl, rfl⟩
  | cons w rest ih =>
      intro acc
      have hstep := persistStep_slice u acc w
      obtain ⟨h1, h2, h3, h4, h5, h6, h7⟩ := ih (persistStep u acc w)
      refine ⟨?_, ?_, ?_, ?_, ?_, ?_, ?_⟩
      · rw [List.foldl_cons, h1, hstep.1, hstep.2.1]
        rfl
      · rw [List.foldl_cons, h2, hstep.1, hstep.2.1]
        rfl
      · rw [List.foldl_cons, h3, hstep.2.2.1]
      · rw [List.foldl_cons, h4, hstep.2.2.2.1]
      · rw [List.foldl_cons, h5, hstep.2.2.2.2.1]
      · rw [List.foldl_cons, h6, hstep.2.2.2.2.2.1]
      · rw [List.foldl_cons, h7, hstep.2.2.2.2.2.2]

theorem persistStep_any_mono (u : String) {p : Workout → Bool}
    (acc : Database × ℕ × ℕ) (w : ParsedWorkout)
    (h : acc.1.workouts.any p = true) :
    (persistStep u acc w).1.workouts.any p = true := by
  unfold persistStep
  by_cases hb : acc.1.workouts.any (workoutKeyMatches u w) = true
  · rw [if_pos hb]
    exact h
  · rw [if_neg hb]
    simp [insertWorkout, List.any_append, h]

theorem persist_fold_any_mono (u : String) {p : Workout → Bool}
    (ws : List ParsedWorkout) :
    ∀ acc, acc.1.workouts.any p = true →
    ((ws.foldl (persistStep u) acc).1.workouts.any p) = true := by
  induction ws with
  | nil => exact fun acc h => h
  | cons w rest ih =>
      intro acc h
      rw [List.foldl_cons]
      exact ih _ (persistStep_any_mono u acc w h)

theorem persistStep_self_key (u : String) (acc : Database × ℕ × ℕ)
    (w : ParsedWorkout) :
    ((persistStep u acc w).1.workouts.any (workoutKeyMatches u w)) = true := by
  unfold persistStep
  by_cases hb : acc.1.workouts.any (workoutKeyMatches u w) = true
  · rw [if_pos hb]
    exact hb
  · rw [if_neg hb]
    simp [insertWorkout, List.any_append, workoutKeyMatches]

theorem persist_fold_all_keys (u : String) (ws : List ParsedWorkout) :
    ∀ acc, ∀ w ∈ ws,
    ((ws.foldl (persistStep u) acc).1.workouts.any (workoutKeyMatches u w)) = true := by
  induction ws with
  | nil => intro acc w hw; cases hw
  | cons w0 rest ih =>
      intro acc w hw
      rw [List.foldl_cons]
      rcases List.mem_cons.mp hw with h0 | h1
      · subst h0
        exact persist_fold_any_mono u rest _ (persistStep_self_key u acc w)
      · exact ih _ w h1

theorem persist_fold_all_skip (u : String) (ws : List ParsedWorkout) :
    ∀ (db : Database) (c s : ℕ),
    (∀ w ∈ ws, db.workouts.any (workoutKeyMatches u w) = true) →
    ws.foldl (persistStep u) (db, c, s) = (db, c, s + ws.length) := by
  induction ws with
  | nil => intro db c s _; rfl
  | cons w rest ih =>
      intro db c s h
      rw [List.foldl_cons]
      have hw : db.workouts.any (workoutKeyMatches u w) = true :=
        h w (List.mem_cons_self w rest)
      have hstep : persistStep u (db, c, s) w = (db, c, s + 1) := by
        unfold persistStep
        rw [if_pos hw]
      rw [hstep, ih db c (s + 1) (fun w' hw' => h w' (List.mem_cons_of_mem w hw'))]
      simp only [List.length_cons, Prod.mk.injEq, true_and]
      omega

theorem sliceRecomputeRow_user_filter (u : String) (l : List DailyMetrics)
    (W : List Workout) (m : DailyMetrics) :
    (sliceRecomputeRow (l.filter (fun x => x.user_id = u)) W m).user_id = u
    ∨ sliceRecomputeRow (l.filter (fun x => x.user_id = u)) W m = m := by
  unfold sliceRecomputeRow
  cases hfind : ((sortByDate (l.filter (fun x => x.user_id = u))).map
      (syncRow W)).enum.find? (fun p => p.2.rid == m.rid) with
  | none => right; rfl
  | some p =>
      obtain ⟨i0, x⟩ := p
      left
      have hmem : (i0, x) ∈ ((sortByDate (l.filter
          (fun x => x.user_id = u))).map (syncRow W)).enum :=
        List.mem_of_find?_eq_some hfind
      have hxmem : x ∈ (sortByDate (l.filter (fun x => x.user_id = u))).map
          (syncRow W) := by
        have : x ∈ (((sortByDate (l.filter (fun x => x.user_id = u))).map
            (syncRow W)).enum.map Prod.snd) :=
          List.mem_map.mpr ⟨(i0, x), hmem, rfl⟩
        simpa [List.enum_map_snd] using this
      obtain ⟨x', hx'mem, hx'⟩ := List.mem_map.mp hxmem
      have hx'u : x'.user_id = u := by
        have := mem_sortByDate.mp hx'mem
        simpa using (List.mem_filter.mp this).2
      calc (featureRow ((sortByDate (l.filter (fun x => x.user_id = u))).map
              (syncRow W)) i0 x).user_id
          = x.user_id := (featureRow_preserves _ i0 x).2.1
        _ = x'.user_id := by rw [← hx']; exact (syncRow_preserves W x').2.1
        _ = u := hx'u

theorem recompute_F_pred (u : String) (db : Database) (m : DailyMetrics) :
    (decide ((if m.user_id = u then
        sliceRecomputeRow (db.metrics.filter (fun x => x.user_id = u))
          (db.workouts.filter (fun w => w.user_id = u)) m
      else m).user_id = u))
    = decide (m.user_id = u) := by
  by_cases hu : m.user_id = u
  · rw [if_pos hu]
    rcases sliceRecomputeRow_user_filter u db.metrics
        (db.workouts.filter (fun w => w.user_id = u)) m with h | h
    · simp [h, hu]
    · simp [h, hu]
  · rw [if_neg hu]

theorem recompute_slice (u : String) (db : Database) :
    (recompute_daily_features u db).metrics.filter (fun m => m.user_id = u)
      = sliceRecompute (db.metrics.filter (fun m => m.user_id = u))
          (db.workouts.filter (fun w => w.user_id = u))
    ∧ (recompute_daily_features u db).metrics.filter (fun m => ¬ m.user_id = u)
      = db.metrics.filter (fun m => ¬ m.user_id = u)
    ∧ (recompute_daily_features u db).workouts = db.workouts
    ∧ (recompute_daily_features u db).workoutsNextId = db.workoutsNextId
    ∧ (recompute_daily_features u db).metricsNextId = db.metricsNextId
    ∧ (recompute_daily_features u db).uploads = db.uploads
    ∧ (recompute_daily_features u db).insights = db.insights := by
  refine ⟨?_, ?_, rfl, rfl, rfl, rfl, rfl⟩
  · unfold recompute_daily_features
    rw [List.filter_map]
    have hcong : db.metrics.filter ((fun m => decide (m.user_id = u)) ∘
          (fun m => if m.user_id = u then
            sliceRecomputeRow (db.metrics.filter (fun x => x.user_id = u))
              (db.workouts.filter (fun w => w.user_id = u)) m
          else m))
        = db.metrics.filter (fun m => decide (m.user_id = u)) :=
      List.filter_congr (fun m _ => recompute_F_pred u db m)
    rw [hcong]
    unfold sliceRecompute
    refine List.map_congr_left ?_
    intro m hm
    have hu : m.user_id = u := by
      simpa using (List.mem_filter.mp hm).2
    rw [if_pos hu]
  · unfold recompute_daily_features
    rw [List.filter_map]
    have hcong : db.metrics.filter ((fun m => decide (¬ m.user_id = u)) ∘
          (fun m => if m.user_id = u then
            sliceRecomputeRow (db.metrics.filter (fun x => x.user_id = u))
              (db.workouts.filter (fun w => w.user_id = u)) m
          else m))
        = db.metrics.filter (fun m => decide (¬ m.user_id = u)) := by
      refine List.filter_congr (fun m _ => ?_)
      simp only [Function.comp]
      by_cases hu : m.user_id = u
      · rcases sliceRecomputeRow_user_filter u db.metrics
            (db.workouts.filter (fun w => w.user_id = u)) m with h | h
        · simp [hu, h]
        · simp [hu, h]
      · simp [hu]
    rw [hcong]
    have : ∀ m ∈ db.metrics.filter (fun m => decide (¬ m.user_id = u)),
        (if m.user_id = u then
          sliceRecomputeRow (db.metrics.filter (fun x => x.user_id = u))
            (db.workouts.filter (fun w => w.user_id = u)) m
        else m) = m := by
      intro m hm
      have hu : ¬ m.user_id = u := by
        simpa using (List.mem_filter.mp hm).2
      rw [if_neg hu]
    calc (db.metrics.filter (fun m => decide (¬ m.user_id = u))).map _
        = (db.metrics.filter (fun m => decide (¬ m.user_id = u))).map id :=
          List.map_congr_left this
      _ = db.metrics.filter (fun m => decide (¬ m.user_id = u)) := List.map_id _

/-! ### The slice pipeline commutes with a uniform primary-key shift -/

theorem beq_add_right (a b k : ℕ) : (a + k == b + k) = (a == b) := by
  by_cases h : a = b
  · simp [h]
  · have h2 : ¬ a + k = b + k := by omega
    simp [h, h2]

theorem sliceUpsertOne_shift (u : String) (k : ℕ) (r : ParsedDaily)
    (S : List DailyMetrics) (n : ℕ) :
    sliceUpsertOne u (S.map (addRid k), n + k) r
      = ((sliceUpsertOne u (S, n) r).1.map (addRid k),
         (sliceUpsertOne u (S, n) r).2 + k) := by
  unfold sliceUpsertOne
  cases r.date with
  | none => rfl
  | some d =>
      dsimp only
      have hp : ∀ x : DailyMetrics,
          (fun m => decide (m.user_id = u ∧ m.date = d)) (addRid k x)
            = (fun m => decide (m.user_id = u ∧ m.date = d)) x := fun x => rfl
      rw [any_map_congr hp S]
      by_cases hb : S.any (fun m => m.user_id = u ∧ m.date = d) = true
      · rw [if_pos hb, if_pos hb]
        rw [updateFirst_map hp (fun x => applyPayload_addRid (mkPayload r) k x) S]
      · rw [if_neg hb, if_neg hb]
        rw [List.map_append]
        simp only [List.map_cons, List.map_nil, newDailyMetrics_addRid,
          Prod.mk.injEq, and_true, true_and]
        omega

theorem sliceUpsertAll_shift (u : String) (k : ℕ) (rows : List ParsedDaily) :
    ∀ (S : List DailyMetrics) (n : ℕ),
    sliceUpsertAll u rows (S.map (addRid k), n + k)
      = ((sliceUpsertAll u rows (S, n)).1.map (addRid k),
         (sliceUpsertAll u rows (S, n)).2 + k) := by
  induction rows with
  | nil => intro S n; rfl
  | cons r rest ih =>
      intro S n
      show sliceUpsertAll u rest (sliceUpsertOne u (S.map (addRid k), n + k) r) = _
      rw [sliceUpsertOne_shift]
      exact ih (sliceUpsertOne u (S, n) r).1 (sliceUpsertOne u (S, n) r).2

theorem slicePersistOne_shift (u : String) (k : ℕ) (w : ParsedWorkout)
    (W : List Workout) (n : ℕ) :
    slicePersistOne u (W.map (addWRid k), n + k) w
      = ((slicePersistOne u (W, n) w).1.map (addWRid k),
         (slicePersistOne u (W, n) w).2 + k) := by
  unfold slicePersistOne
  have hp : ∀ e : Workout,
      workoutKeyMatches u w (addWRid k e) = workoutKeyMatches u w e := fun e => rfl
  rw [any_map_congr hp W]
  by_cases hb : W.any (workoutKeyMatches u w) = true
  · rw [if_pos hb, if_pos hb]
  · rw [if_neg hb, if_neg hb]
    rw [List.map_append]
    simp only [List.map_cons, List.map_nil, Prod.mk.injEq, true_and]
    exact ⟨rfl, by omega⟩

theorem slicePersistAll_shift (u : String) (k : ℕ) (ws : List ParsedWorkout) :
    ∀ (W : List Workout) (n : ℕ),
    slicePersistAll u ws (W.map (addWRid k), n + k)
      = ((slicePersistAll u ws (W, n)).1.map (addWRid k),
         (slicePersistAll u ws (W, n)).2 + k) := by
  induction ws with
  | nil => intro W n; rfl
  | cons w rest ih =>
      intro W n
      show slicePersistAll u rest (slicePersistOne u (W.map (addWRid k), n + k) w) = _
      rw [slicePersistOne_shift]
      exact ih (slicePersistOne u (W, n) w).1 (slicePersistOne u (W, n) w).2

theorem insertByDate_map_addRid (k : ℕ) (m : DailyMetrics) :
    ∀ l : List DailyMetrics,
    insertByDate (addRid k m) (l.map (addRid k)) = (insertByDate m l).map (addRid k) := by
  intro l
  induction l with
  | nil => rfl
  | cons x xs ih =>
      simp only [List.map_cons]
      unfold insertByDate
      by_cases h : m.date ≤ x.date
      · rw [if_pos (show (addRid k m).date ≤ (addRid k x).date from h), if_pos h]
        rfl
      · rw [if_neg (show ¬ (addRid k m).date ≤ (addRid k x).date from h),
          if_neg h, ih]
        rfl

theorem sortByDate_map_addRid (k : ℕ) :
    ∀ l : List DailyMetrics,
    sortByDate (l.map (addRid k)) = (sortByDate l).map (addRid k) := by
  intro l
  induction l with
  | nil => rfl
  | cons x xs ih =>
      show insertByDate (addRid k x) (sortByDate (xs.map (addRid k))) = _
      rw [ih, insertByDate_map_addRid]
      rfl

theorem workoutSummaryFor_map (k : ℕ) (W : List Workout) (d : ℤ) :
    workoutSummaryFor (W.map (addWRid k)) d = workoutSummaryFor W d := by
  have hflt : (W.map (addWRid k)).filter (fun w => w.date = d)
      = (W.filter (fun w => w.date = d)).map (addWRid k) := by
    rw [List.filter_map]
    exact congrArg (List.map (addWRid k)) (List.filter_congr (fun w _ => rfl))
  have hie : ∀ l : List Workout, (l.map (addWRid k)).isEmpty = l.isEmpty := by
    intro l
    cases l <;> rfl
  have hfm : ∀ l : List Workout,
      (l.map (addWRid k)).filterMap (fun w => w.strain)
        = l.filterMap (fun w => w.strain) := by
    intro l
    rw [List.filterMap_map]
    rfl
  unfold workoutSummaryFor
  dsimp only
  rw [hflt, hie, hfm, List.length_map]

theorem syncRow_map_shift (kw k : ℕ) (W : List Workout) (m : DailyMetrics) :
    syncRow (W.map (addWRid kw)) (addRid k m) = addRid k (syncRow W m) := by
  unfold syncRow
  have hd : (addRid k m).date = m.date := rfl
  rw [hd, workoutSummaryFor_map]
  cases hws : workoutSummaryFor W m.date with
  | none =>
      dsimp only
      by_cases hc : m.strain_score = none ∨ m.strain_score = some 0
      · rw [if_pos (show (addRid k m).strain_score = none
            ∨ (addRid k m).strain_score = some 0 from hc), if_pos hc]
        rfl
      · rw [if_neg (show ¬ ((addRid k m).strain_score = none
            ∨ (addRid k m).strain_score = some 0) from hc), if_neg hc]
        rfl
  | some p =>
      obtain ⟨c, ssum⟩ := p
      dsimp only
      by_cases hc : m.strain_score = none ∨ m.strain_score = some 0
      · rw [if_pos (show (addRid k m).strain_score = none
            ∨ (addRid k m).strain_score = some 0 from hc), if_pos hc]
        rfl
      · rw [if_neg (show ¬ ((addRid k m).strain_score = none
            ∨ (addRid k m).strain_score = some 0) from hc), if_neg hc]
        rfl

theorem featureRow_map_addRid (k : ℕ) (synced : List DailyMetrics) (i : ℕ)
    (x : DailyMetrics) :
    featureRow (synced.map (addRid k)) i (addRid k x)
      = addRid k (featureRow synced i x) := by
  unfold featureRow
  dsimp only
  simp only [List.map_map]
  rfl

theorem sliceRecomputeRow_shift (k kw : ℕ) (S : List DailyMetrics)
    (W : List Workout) (m : DailyMetrics) :
    sliceRecomputeRow (S.map (addRid k)) (W.map (addWRid kw)) (addRid k m)
      = addRid k (sliceRecomputeRow S W m) := by
  unfold sliceRecomputeRow
  rw [sortByDate_map_addRid]
  have hsy : ((sortByDate S).map (addRid k)).map (syncRow (W.map (addWRid kw)))
      = ((sortByDate S).map (syncRow W)).map (addRid k) := by
    rw [List.map_map, List.map_map]
    exact List.map_congr_left (fun x _ => syncRow_map_shift kw k W x)
  rw [hsy, List.enum_map, List.find?_map]
  have hpred : ((fun p => p.2.rid == (addRid k m).rid) ∘
        Prod.map id (addRid k))
      = (fun p : ℕ × DailyMetrics => p.2.rid == m.rid) := by
    funext p
    show ((addRid k p.2).rid == (addRid k m).rid) = (p.2.rid == m.rid)
    exact beq_add_right p.2.rid m.rid k
  rw [hpred]
  cases hf : ((sortByDate S).map (syncRow W)).enum.find?
      (fun p => p.2.rid == m.rid) with
  | none => rfl
  | some p =>
      obtain ⟨i, x⟩ := p
      simp only [Option.map_some', Prod.map, id]
      exact featureRow_map_addRid k _ i x

theorem sliceRecompute_shift (k kw : ℕ) (S : List DailyMetrics)
    (W : List Workout) :
    sliceRecompute (S.map (addRid k)) (W.map (addWRid kw))
      = (sliceRecompute S W).map (addRid k) := by
  unfold sliceRecompute
  rw [List.map_map, List.map_map]
  exact List.map_congr_left (fun m _ => sliceRecomputeRow_shift k kw S W m)

/-! ### Invariants of the freshly built user slice -/

theorem filter_ne_then_eq (u : String) (l : List DailyMetrics) :
    (l.filter (fun m => m.user_id ≠ u)).filter (fun m => m.user_id = u) = [] := by
  induction l with
  | nil => rfl
  | cons x xs ih =>
      by_cases h : x.user_id = u
      · simp [List.filter_cons, h, ih]
      · simp [List.filter_cons, h, ih]

theorem wfilter_ne_then_eq (u : String) (l : List Workout) :
    (l.filter (fun w => w.user_id ≠ u)).filter (fun w => w.user_id = u) = [] := by
  induction l with
  | nil => rfl
  | cons x xs ih =>
      by_cases h : x.user_id = u
      · simp [List.filter_cons, h, ih]
      · simp [List.filter_cons, h, ih]

theorem updateFirst_map_key {α β : Type} {p : α → Bool} {f : α → α}
    (g : α → β) (hg : ∀ x, g (f x) = g x) :
    ∀ l : List α, (updateFirst p f l).map g = l.map g := by
  intro l
  induction l with
  | nil => rfl
  | cons x xs ih =>
      rw [updateFirst_cons]
      by_cases h : p x = true
      · rw [if_pos h]
        simp only [List.map_cons, hg]
      · rw [if_neg h]
        simp only [List.map_cons, ih]

theorem pairwise_key_of_map_eq {α β : Type} {l l2 : List α} (g : α → β)
    (hmap : l2.map g = l.map g) (h : l.Pairwise (fun a b => g a ≠ g b)) :
    l2.Pairwise (fun a b => g a ≠ g b) := by
  have h2 : (l.map g).Pairwise (fun a b => a ≠ b) := List.pairwise_map.mpr h
  rw [← hmap] at h2
  exact List.pairwise_map.mp h2

theorem forall_key_of_map_eq {α β : Type} {l l2 : List α} (g : α → β)
    {P : β → Prop} (hmap : l2.map g = l.map g) (h : ∀ m ∈ l, P (g m)) :
    ∀ m ∈ l2, P (g m) := by
  intro m hm
  have hmem : g m ∈ l.map g := by
    rw [← hmap]
    exact List.mem_map_of_mem g hm
  obtain ⟨x, hx, hxe⟩ := List.mem_map.mp hmem
  exact hxe ▸ h x hx

theorem sliceInv_empty (u : String) (n : ℕ) : sliceInv u ([], n) := by
  unfold sliceInv
  exact ⟨fun m hm => absurd hm (List.not_mem_nil m),
    fun m hm => absurd hm (List.not_mem_nil m),
    List.Pairwise.nil, List.Pairwise.nil⟩

theorem sliceUpsertOne_inv (u : String) (acc : List DailyMetrics × ℕ)
    (r : ParsedDaily) (h : sliceInv u acc) :
    sliceInv u (sliceUpsertOne u acc r) := by
  unfold sliceInv at h ⊢
  obtain ⟨hu, hlt, hrid, hdate⟩ := h
  unfold sliceUpsertOne
  cases hrd : r.date with
  | none => exact ⟨hu, hlt, hrid, hdate⟩
  | some d =>
      dsimp only
      by_cases hb : acc.1.any (fun m => m.user_id = u ∧ m.date = d) = true
      · rw [if_pos hb]
        dsimp only
        have hmu := @updateFirst_map_key DailyMetrics String
          (fun m => decide (m.user_id = u ∧ m.date = d))
          (applyPayload (mkPayload r)) (fun m => m.user_id) (fun x => rfl) acc.1
        have hmr := @updateFirst_map_key DailyMetrics ℕ
          (fun m => decide (m.user_id = u ∧ m.date = d))
          (applyPayload (mkPayload r)) (fun m => m.rid) (fun x => rfl) acc.1
        have hmd := @updateFirst_map_key DailyMetrics ℤ
          (fun m => decide (m.user_id = u ∧ m.date = d))
          (applyPayload (mkPayload r)) (fun m => m.date) (fun x => rfl) acc.1
        exact ⟨@forall_key_of_map_eq DailyMetrics String acc.1 _
            (fun m : DailyMetrics => m.user_id) (fun s => s = u) hmu hu,
          @forall_key_of_map_eq DailyMetrics ℕ acc.1 _
            (fun m : DailyMetrics => m.rid) (fun n => n < acc.2) hmr hlt,
          pairwise_key_of_map_eq (fun m : DailyMetrics => m.rid) hmr hrid,
          pairwise_key_of_map_eq (fun m : DailyMetrics => m.date) hmd hdate⟩
      · rw [if_neg hb]
        dsimp only
        have hnew : ∀ a ∈ acc.1, a.date ≠ d := by
          intro a ha had
          exact hb (List.any_eq_true.mpr ⟨a, ha, by simp [hu a ha, had]⟩)
        refine ⟨?_, ?_, ?_, ?_⟩
        · intro m hm
          rcases List.mem_append.mp hm with h1 | h2
          · exact hu m h1
          · rw [List.mem_singleton.mp h2]
            rfl
        · intro m hm
          rcases List.mem_append.mp hm with h1 | h2
          · exact Nat.lt_succ_of_lt (hlt m h1)
          · rw [List.mem_singleton.mp h2]
            exact Nat.lt_succ_self acc.2
        · refine List.pairwise_append.mpr ⟨hrid, by simp, ?_⟩
          intro a ha b hb2
          rw [List.mem_singleton.mp hb2]
          exact Nat.ne_of_lt (hlt a ha)
        · refine List.pairwise_append.mpr ⟨hdate, by simp, ?_⟩
          intro a ha b hb2
          rw [List.mem_singleton.mp hb2]
          exact hnew a ha

theorem sliceUpsertAll_inv (u : String) (rows : List ParsedDaily) :
    ∀ acc : List DailyMetrics × ℕ, sliceInv u acc →
      sliceInv u (sliceUpsertAll u rows acc) := by
  induction rows with
  | nil => exact fun acc h => h
  | cons r rest ih =>
      intro acc h
      exact ih (sliceUpsertOne u acc r) (sliceUpsertOne_inv u acc r h)

theorem sliceRecompute_dates (S : List DailyMetrics) (W : List Workout)
    (hrid : S.Pairwise (fun a b => a.rid ≠ b.rid)) :
    (sliceRecompute S W).map (fun m => m.date) = S.map (fun m => m.date) := by
  unfold sliceRecompute
  rw [List.map_map]
  exact List.map_congr_left (fun m hm =>
    (sliceRecomputeRow_preserves S W hrid m hm).2.2.1)

theorem map_date_stripRid (l : List DailyMetrics) :
    (l.map stripRid).map (fun m => m.date) = l.map (fun m => m.date) := by
  rw [List.map_map]
  exact List.map_congr_left (fun m _ => rfl)

/-! ### The committed store of a successful ingestion run, as a function of
the parsed archive -/

theorem ingest_ok_committed (u upId : String) (data : ParsedArchive)
    (st : TxState) :
    ((ingest_whoop_zip u upId (.ok data) st).committed.metrics.filter
        (fun m => m.user_id = u)
      = sliceRecompute
          (sliceUpsertAll u data.metrics ([], st.pending.metricsNextId)).1
          (slicePersistAll u data.workouts ([], st.pending.workoutsNextId)).1)
    ∧ ((ingest_whoop_zip u upId (.ok data) st).committed.workouts.filter
        (fun w => w.user_id = u)
      = (slicePersistAll u data.workouts ([], st.pending.workoutsNextId)).1) := by
  have hkey : ∀ dbU : Database,
      dbU.metrics.filter (fun m => m.user_id = u) = [] →
      dbU.workouts.filter (fun w => w.user_id = u) = [] →
      ((recompute_daily_features u
          (persist_workouts u data.workouts
            (upsert_daily_metrics u data.metrics dbU)).1).metrics.filter
              (fun m => m.user_id = u)
        = sliceRecompute
            (sliceUpsertAll u data.metrics ([], dbU.metricsNextId)).1
            (slicePersistAll u data.workouts ([], dbU.workoutsNextId)).1)
      ∧ ((recompute_daily_features u
          (persist_workouts u data.workouts
            (upsert_daily_metrics u data.metrics dbU)).1).workouts.filter
              (fun w => w.user_id = u)
        = (slicePersistAll u data.workouts ([], dbU.workoutsNextId)).1) := by
    intro dbU hm0 hw0
    obtain ⟨u1, -, -, u4, u5, -, -⟩ := upsert_all_slice u data.metrics dbU
    obtain ⟨p1, -, -, p4, -, -, -⟩ :=
      persist_fold_slice u data.workouts
        (upsert_daily_metrics u data.metrics dbU, 0, 0)
    obtain ⟨r1, -, r3, -, -, -, -⟩ :=
      recompute_slice u
        (persist_workouts u data.workouts
          (upsert_daily_metrics u data.metrics dbU)).1
    constructor
    · rw [r1]
      unfold persist_workouts
      rw [p4, p1]
      dsimp only
      rw [u1, u4, u5, hm0, hw0]
    · rw [r3]
      unfold persist_workouts
      rw [p1]
      dsimp only
      rw [u4, u5, hw0]
  exact hkey
    { clear_existing_data u st.pending with
      uploads := (clear_existing_data u st.pending).uploads ++
        [{ id := upId, user_id := u, status := UploadStatus.processing }] }
    (filter_ne_then_eq u st.pending.metrics)
    (wfilter_ne_then_eq u st.pending.workouts)

theorem ingest_obs_canonical (u upId : String) (data : ParsedArchive)
    (st : TxState) :
    obsMetrics u (ingest_whoop_zip u upId (.ok data) st).committed
      = canonicalMetrics u data
    ∧ obsWorkouts u (ingest_whoop_zip u upId (.ok data) st).committed
      = canonicalWorkouts u data := by
  obtain ⟨h1, h2⟩ := ingest_ok_committed u upId data st
  have hmShift := sliceUpsertAll_shift u st.pending.metricsNextId data.metrics [] 0
  have hwShift := slicePersistAll_shift u st.pending.workoutsNextId data.workouts [] 0
  simp only [List.map_nil, Nat.zero_add] at hmShift hwShift
  constructor
  · unfold obsMetrics canonicalMetrics
    rw [h1, hmShift, hwShift]
    dsimp only
    rw [sliceRecompute_shift, List.map_map]
    exact List.map_congr_left
      (fun m _ => stripRid_addRid st.pending.metricsNextId m)
  · unfold obsWorkouts canonicalWorkouts
    rw [h2, hwShift]
    dsimp only
    rw [List.map_map]
    exact List.map_congr_left
      (fun w _ => stripWRid_addWRid st.pending.workoutsNextId w)

theorem ingest_dates_nodup (u upId : String) (data : ParsedArchive)
    (st : TxState) :
    ((ingest_whoop_zip u upId (.ok data) st).committed.metrics.filter
        (fun m => m.user_id = u)).Pairwise (fun a b => a.date ≠ b.date) := by
  rw [(ingest_ok_committed u upId data st).1]
  have hinv := sliceUpsertAll_inv u data.metrics ([], st.pending.metricsNextId)
    (sliceInv_empty u st.pending.metricsNextId)
  unfold sliceInv at hinv
  obtain ⟨-, -, hrid, hdate⟩ := hinv
  exact pairwise_key_of_map_eq (fun m : DailyMetrics => m.date)
    (sliceRecompute_dates _ _ hrid) hdate

theorem persist_twice (u : String) (ws : List ParsedWorkout) (db : Database) :
    persist_workouts u ws (persist_workouts u ws db).1
      = ((persist_workouts u ws db).1, 0, ws.length) := by
  unfold persist_workouts
  have hall : ∀ w ∈ ws,
      ((ws.foldl (persistStep u) (db, 0, 0)).1.workouts.any
        (workoutKeyMatches u w)) = true :=
    fun w hw => persist_fold_all_keys u ws (db, 0, 0) w hw
  have hskip := persist_fold_all_skip u ws
    (ws.foldl (persistStep u) (db, 0, 0)).1 0 0 hall
  simpa using hskip

/-- Claim C3: repeated ingestion of the same archive is idempotent on the
persisted data.  Running a second successful ingestion of the same parsed
archive for the same user leaves the user's DailyMetric row set (all columns,
surrogate keys forgotten) exactly as after the first run, with no duplicate
(user, date) rows in the committed table; the user's Workout row set is
likewise unchanged; and re-persisting the same workout list over any store it
already populated inserts nothing — every candidate matches an existing
(user, start_time, duration, sport_type) key and is counted as skipped. -/
theorem ingest_archive_idempotent (u upId1 upId2 : String)
    (data : ParsedArchive) (st : TxState) :
    obsMetrics u (ingest_whoop_zip u upId2 (.ok data)
        (ingest_whoop_zip u upId1 (.ok data) st)).committed
      = obsMetrics u (ingest_whoop_zip u upId1 (.ok data) st).committed
    ∧ ((ingest_whoop_zip u upId1 (.ok data) st).committed.metrics.filter
        (fun m => m.user_id = u)).Pairwise (fun a b => a.date ≠ b.date)
    ∧ obsWorkouts u (ingest_whoop_zip u upId2 (.ok data)
        (ingest_whoop_zip u upId1 (.ok data) st)).committed
      = obsWorkouts u (ingest_whoop_zip u upId1 (.ok data) st).committed
    ∧ ∀ db : Database,
        persist_workouts u data.workouts (persist_workouts u data.workouts db).1
          = ((persist_workouts u data.workouts db).1, 0, data.workouts.length) := by
  obtain ⟨m1, w1⟩ := ingest_obs_canonical u upId1 data st
  obtain ⟨m2, w2⟩ := ingest_obs_canonical u upId2 data
    (ingest_whoop_zip u upId1 (.ok data) st)
  exact ⟨m2.trans m1.symm, ingest_dates_nodup u upId1 data st,
    w2.trans w1.symm, fun db => persist_twice u data.workouts db⟩

end Whoop
